import Mathlib

/-!
# A verification development for `tcs-board`

A shallow embedding of the two source files of the service-health monitor

* `probe/probe.go`     (statuses, `ProberConfig`, `EvaluateDuration`)
* `manager/manager.go` (`Service`, `Manager`, `NewManager`, `ProbeLoop`,
                        `probeAll`, `AlertAll`)

followed by theorems about the embedded definitions.

Conventions of the embedding.

* Go strings are `String`; `probe.Status` is a named string type, so any
  string is a status and the four constants are four particular strings.
* `time.Duration` is an `int64` count of nanoseconds: an `Int` together with
  the range predicate `isInt64`; arithmetic is wrapped with `wrap64`.
* A Go interface value is either nil or a concrete implementation.  A slot of
  `[]alert.Alerter` is therefore `Option A`, with `none` for nil.
* `*Service` pointers are the paths `(category, index)` under which the
  manager's `Services` map holds the record.
* `time.Now()` is a sequence of readings `Now 0, Now 1, ...`; the state counts
  how many readings have been taken.
* A run-time panic (nil dereference) ends the process: the state is marked
  `panicked` and nothing runs afterwards.
-/

set_option autoImplicit false

namespace probe

/-! ## probe/probe.go -/

/-- Go `type Status string`. -/
abbrev Status := String

/-- The constant `StatusUnknown Status = ""`. -/
def StatusUnknown : Status := ""

/-- The constant `StatusWarning Status = "WARNING"`. -/
def StatusWarning : Status := "WARNING"

/-- The constant `StatusError Status = "ERROR"`. -/
def StatusError : Status := "ERROR"

/-- The constant `StatusOK Status = "OK"`. -/
def StatusOK : Status := "OK"

/-- Go `time.Duration`, an `int64` number of nanoseconds. -/
abbrev Duration := Int

/-- The values an `int64` can hold. -/
def isInt64 (x : Int) : Prop := -(2 : Int) ^ 63 ≤ x ∧ x < (2 : Int) ^ 63

instance (x : Int) : Decidable (isInt64 x) := by
  unfold isInt64; infer_instance

/-- Two's-complement wrap-around of a mathematical integer into `int64`. -/
def wrap64 (x : Int) : Int := (x + (2 : Int) ^ 63) % (2 : Int) ^ 64 - (2 : Int) ^ 63

/-- Go `ProberConfig`.  `Options` is `map[string]interface{}`; the manager never
looks inside it, so it is kept as an association list of rendered values. -/
structure ProberConfig where
  Target : String
  Options : List (String × String)
  Warning : Duration
  Fatal : Duration
deriving DecidableEq, Repr

/-- Go `Duration.Nanoseconds()`: the duration as an `int64`. -/
def Nanoseconds (d : Duration) : Int := d

/-- Go `int64` division `a / b` for a non-zero constant divisor: the quotient is
truncated toward zero, and the result is an `int64`. -/
def int64Div (a b : Int) : Int := wrap64 (Int.tdiv a b)

/-- The verb `%d` of `fmt.Sprintf` on an integer: an optional minus sign followed by
the decimal digits. -/
def sprintfD (n : Int) : String :=
  match n with
  | Int.ofNat k => Nat.repr k
  | Int.negSucc k => "-" ++ Nat.repr (k + 1)

/-- Go `EvaluateDuration(duration, warning)`:
```go
if duration >= warning { status = StatusWarning } else { status = StatusOK }
message = fmt.Sprintf("%d ms", duration.Nanoseconds()/1000000)
```
-/
def EvaluateDuration (duration warning : Duration) : Status × String :=
  let status : Status := if duration ≥ warning then StatusWarning else StatusOK
  let message := sprintfD (int64Div (Nanoseconds duration) 1000000) ++ " ms"
  (status, message)

end probe

namespace manager

open probe

/-! ## manager/manager.go: data -/

/-- Go `error`, identified with the text it carries (`errors.New(text)` is `text`). -/
abbrev Error := String

/-- An instant returned by `time.Now()`. -/
abbrev Time := Int

/-- The zero value of `time.Time`, which a fresh `Manager` holds in `LastUpdate`. -/
def zeroTime : Time := 0

/-- The `*logrus.Logger` handed to `NewManager`; only its identity matters. -/
structure Logger where
  id : Nat
deriving DecidableEq, Repr

/-- The `*KubeClient` stored in the manager; only its identity matters. -/
structure KubeClient where
  id : Nat
deriving DecidableEq, Repr

/-- Go `Service`.  `P` is the type of concrete probers behind the `probe.Prober`
interface. -/
structure Service (P : Type) where
  Prober : P
  Name : String
  Status : probe.Status
  Message : String
  Target : String
deriving DecidableEq, Repr

/-- Go `map[string][]*Service`: the keys that are present, each with its slice.
A key occurs at most once in a map built with `mapSet`. -/
abbrev ServiceMap (P : Type) := List (String × List (Service P))

/-- Go `Manager`.  A slot of `Alerts` is an interface value: `none` is nil. -/
structure Manager (P A : Type) where
  logger : Logger
  kubeClient : KubeClient
  LastUpdate : Time
  Services : ServiceMap P
  Alerts : List (Option A)
deriving DecidableEq, Repr

/-- Modelled from the spec: package `config` is not in src/.  One probe declaration
("type name, category, service name, check-specific configuration"), the element
type of `cfg.Probes`; the fields are those `NewManager` reads. -/
structure ProbeConfig where
  Type_ : String
  Category : String
  Name : String
  Config : ProberConfig
deriving DecidableEq, Repr

/-- Modelled from the spec: package `config` is not in src/.  One alert declaration
("type name, channel-specific configuration"), the element type of `cfg.Alerts`. -/
structure AlertConfig where
  Type_ : String
  Options : List (String × String)
deriving DecidableEq, Repr

/-- Modelled from the spec: package `config` is not in src/.  The configuration
`NewManager` receives: the probe declarations and the alert declarations. -/
structure Config where
  Probes : List ProbeConfig
  Alerts : List AlertConfig
deriving DecidableEq, Repr

/-- The collaborators of the manager that are not in src/, taken as parameters.

* `ProbeConstructors`, `AlertConstructors`: the two global registries; `none`
  stands for a missing key (the map then yields a nil constructor).
* `SetProbeConfigDefaults`: `config.SetProbeConfigDefaults`.
* `Init`, `Probe`: the methods of the `probe.Prober` interface.  Both may change
  the prober, so both return the prober afterwards.  `Init` returns `none` for a
  nil error.
* `Now i` is the `i`-th reading of `time.Now()`, `Format` is
  `Time.Format("15:04:05 MST")`. -/
structure Env (P A : Type) where
  NewKubeClient : Unit → KubeClient
  ProbeConstructors : String → Option (Unit → P)
  SetProbeConfigDefaults : ProberConfig → ProberConfig
  Init : P → ProberConfig → P × Option Error
  Probe : P → P × (probe.Status × String)
  AlertConstructors : String → Option (AlertConfig → A)
  Now : Nat → Time
  Format : Time → String

/-! ### The `Services` map -/

/-- Go `m[k]` as a lookup that also tells whether the key is present. -/
def mapGet {P : Type} : ServiceMap P → String → Option (List (Service P))
  | [], _ => none
  | (k', v) :: rest, k => if k' = k then some v else mapGet rest k

/-- Go `m[k]` as an expression: the nil slice when the key is absent. -/
def servicesAt {P : Type} (m : ServiceMap P) (k : String) : List (Service P) :=
  (mapGet m k).getD []

/-- Go `m[k] = v`: replaces the slice of an existing key, adds the key otherwise. -/
def mapSet {P : Type} : ServiceMap P → String → List (Service P) → ServiceMap P
  | [], k, v => [(k, v)]
  | (k', v') :: rest, k, v =>
    if k' = k then (k, v) :: rest else (k', v') :: mapSet rest k v

/-- A `*Service`: the place of the record in the manager's map. -/
structure Ref where
  category : String
  index : Nat
deriving DecidableEq, Repr

/-- Dereference of a `*Service`; `none` when the pointer refers to nothing. -/
def getService {P : Type} (m : ServiceMap P) (r : Ref) : Option (Service P) :=
  (servicesAt m r.category)[r.index]?

/-- A write through a `*Service`: the record at `r` becomes `f` of itself. -/
def updateService {P : Type} (m : ServiceMap P) (r : Ref) (f : Service P → Service P) :
    ServiceMap P :=
  match getService m r with
  | none => m
  | some svc => mapSet m r.category ((servicesAt m r.category).set r.index (f svc))

/-- Every `*Service` held by the map, category by category, in slice order. -/
def allRefs {P : Type} (m : ServiceMap P) : List Ref :=
  m.flatMap (fun kv => (List.range kv.2.length).map (fun i => Ref.mk kv.1 i))

/-! ## `NewManager` -/

/-- Calls `NewManager` makes into its collaborators, in the order it makes them. -/
inductive Event where
  /-- The lookup `probe.ProbeConstructors[c.Type]`. -/
  | resolveProbe (type : String)
  /-- The call `probeConstructor()` for a declaration of this type. -/
  | construct (type : String)
  /-- The call `prober.Init(c.Config)`. -/
  | init (cfg : ProberConfig)
  /-- The lookup `alert.AlertConstructors[c.Type]`. -/
  | resolveAlert (type : String)
  /-- The call `constructor(c)`. -/
  | constructAlert (c : AlertConfig)
deriving DecidableEq, Repr

/-- The first loop of `NewManager` (over `cfg.Probes`), started with the map built so
far.  Returns the error of the first `return nil, ...` reached, or the finished map,
together with the collaborator calls made. -/
def probesLoop {P A : Type} (env : Env P A) :
    List ProbeConfig → ServiceMap P → Except Error (ServiceMap P) × List Event
  | [], services => (.ok services, [])
  | c :: rest, services =>
    match env.ProbeConstructors c.Type_ with
    | none => (.error ("unknown probe type: " ++ c.Type_), [.resolveProbe c.Type_])
    | some probeConstructor =>
      let cConfig := env.SetProbeConfigDefaults c.Config
      let prober := probeConstructor ()
      let r := env.Init prober cConfig
      match r.2 with
      | some err =>
        (.error err, [.resolveProbe c.Type_, .construct c.Type_, .init cConfig])
      | none =>
        let service : Service P :=
          { Prober := r.1, Name := c.Name, Status := "", Message := "",
            Target := cConfig.Target }
        let out := probesLoop env rest
          (mapSet services c.Category (servicesAt services c.Category ++ [service]))
        (out.1, [.resolveProbe c.Type_, .construct c.Type_, .init cConfig] ++ out.2)

/-- The second loop of `NewManager` (over `cfg.Alerts`), started with the slice built
so far; each round appends the constructed alerter. -/
def alertsLoop {P A : Type} (env : Env P A) :
    List AlertConfig → List (Option A) → Except Error (List (Option A)) × List Event
  | [], alerts => (.ok alerts, [])
  | c :: rest, alerts =>
    match env.AlertConstructors c.Type_ with
    | none => (.error ("unknown alert type: " ++ c.Type_), [.resolveAlert c.Type_])
    | some constructor =>
      let out := alertsLoop env rest (alerts ++ [some (constructor c)])
      (out.1, [.resolveAlert c.Type_, .constructAlert c] ++ out.2)

/-- What `NewManager` returns, `(*Manager, error)`, each possibly nil, and the
collaborator calls it made. -/
structure NewManagerResult (P A : Type) where
  manager : Option (Manager P A)
  err : Option Error
  trace : List Event

/-- Go `NewManager(cfg, log)`.  `make([]alert.Alerter, len(cfg.Alerts))` is a slice
of `len(cfg.Alerts)` nil interface values, to which the second loop appends. -/
def NewManager {P A : Type} (env : Env P A) (cfg : Config) (log : Logger) :
    NewManagerResult P A :=
  let kubeClient := env.NewKubeClient ()
  match probesLoop env cfg.Probes [] with
  | (.error err, tr) => { manager := none, err := some err, trace := tr }
  | (.ok services, tr) =>
    match alertsLoop env cfg.Alerts (List.replicate cfg.Alerts.length none) with
    | (.error err, tr2) => { manager := none, err := some err, trace := tr ++ tr2 }
    | (.ok alerts, tr2) =>
      { manager := some
          { logger := log, kubeClient := kubeClient, LastUpdate := zeroTime,
            Services := services, Alerts := alerts },
        err := none, trace := tr ++ tr2 }

/-! ### Reading aids for the two loops -/

/-- The error with which the first loop of `NewManager` returns at the declaration
`c`, when it reaches it: the unknown-type error, or the error of `Init`; `none` when the
declaration is constructed and initialised and the loop goes on. -/
def probeDeclError {P A : Type} (env : Env P A) (c : ProbeConfig) : Option Error :=
  match env.ProbeConstructors c.Type_ with
  | none => some ("unknown probe type: " ++ c.Type_)
  | some probeConstructor =>
    (env.Init (probeConstructor ()) (env.SetProbeConfigDefaults c.Config)).2

/-- The collaborator calls the first loop of `NewManager` makes for a declaration with
a registered type: the lookup, the construction, the initialisation. -/
def probeDeclEvents {P A : Type} (env : Env P A) (c : ProbeConfig) : List Event :=
  [.resolveProbe c.Type_, .construct c.Type_, .init (env.SetProbeConfigDefaults c.Config)]

/-- The collaborator calls the second loop of `NewManager` makes for a declaration
with a registered type: the lookup and the construction. -/
def alertDeclEvents (c : AlertConfig) : List Event :=
  [.resolveAlert c.Type_, .constructAlert c]

/-- The alerter the registered constructor of the declaration's type returns for it;
`none` when the type is not registered. -/
def builtAlerter {P A : Type} (env : Env P A) (c : AlertConfig) : Option A :=
  (env.AlertConstructors c.Type_).map (fun constructor => constructor c)

/-! ## Run time: shared state -/

/-- One invocation `alerter.Alert(status, category, name, message, target, date)` on a
concrete alerter, with the six arguments it received. -/
structure AlertCall (A : Type) where
  alerter : A
  status : probe.Status
  category : String
  name : String
  message : String
  target : String
  date : String
deriving DecidableEq, Repr

/-- The memory shared by the goroutines of one process, and what the process has done
to the outside.

* `m` is the manager `*m`, with the service records its map points to.
* `clock` counts the readings of `time.Now()` taken so far.
* `alertAlls` counts the invocations of `AlertAll` so far.
* `calls` lists the invocations of `Alert` so far, oldest first.
* `probed` lists the `Probe()` calls that have returned, oldest first, each with the
  service it was made for and the two values it returned.
* `panicked` is set once a goroutine has panicked. -/
structure World (P A : Type) where
  m : Manager P A
  clock : Nat
  alertAlls : Nat
  calls : List (AlertCall A)
  probed : List (Ref × probe.Status × String)
  panicked : Bool
deriving DecidableEq, Repr

/-- The state in which a process starts using the manager `m`. -/
def World.start {P A : Type} (m : Manager P A) : World P A :=
  { m := m, clock := 0, alertAlls := 0, calls := [], probed := [], panicked := false }

/-- The write `f` to the record behind the pointer `r`; a write through a pointer
to nothing panics. -/
def World.write {P A : Type} (w : World P A) (r : Ref) (f : Service P → Service P) :
    World P A :=
  match getService w.m.Services r with
  | none => { w with panicked := true }
  | some _ => { w with m := { w.m with Services := updateService w.m.Services r f } }

/-! ## `AlertAll` -/

/-- The loop `for _, alerter := range m.Alerts { alerter.Alert(...) }` over the rest
of the slice.  Each round reads the four fields through the service pointer; the call
on a nil interface value, and the read through a pointer to nothing, panic. -/
def alertLoop {P A : Type} (category : String) (service : Ref) (date : String) :
    List (Option A) → World P A → World P A
  | [], w => w
  | none :: _, w => { w with panicked := true }
  | some alerter :: rest, w =>
    match getService w.m.Services service with
    | none => { w with panicked := true }
    | some svc =>
      alertLoop category service date rest
        { w with calls := w.calls ++
            [{ alerter := alerter, status := svc.Status, category := category,
               name := svc.Name, message := svc.Message, target := svc.Target,
               date := date }] }

/-- Go `(m *Manager) AlertAll(category, service)`:
```go
date := time.Now().Format("15:04:05 MST")
for _, alerter := range m.Alerts {
	alerter.Alert(service.Status, category, service.Name, service.Message, service.Target, date)
}
```
-/
def AlertAll {P A : Type} (env : Env P A) (w : World P A) (category : String)
    (service : Ref) : World P A :=
  let date := env.Format (env.Now w.clock)
  alertLoop category service date w.m.Alerts
    { w with clock := w.clock + 1, alertAlls := w.alertAlls + 1 }

/-! ## The goroutine launched by `probeAll` for one service -/

/-- The places at which the goroutine `go func(category, service) {...}` can stand:
before each of its statements, and after the last. -/
inductive TaskPC where
  /-- Before `prevStatus := service.Status`. -/
  | readPrev
  /-- Before the call `service.Prober.Probe()`. -/
  | callProbe
  /-- Before the store of the first result into `service.Status`. -/
  | writeStatus
  /-- Before the store of the second result into `service.Message`. -/
  | writeMessage
  /-- Before `if prevStatus != service.Status {...}`. -/
  | decide
  /-- After the function has returned. -/
  | done
deriving DecidableEq, Repr

/-- One goroutine: its two arguments, where it stands, and its local values
(`prevStatus`, and the two results of `Probe()` between the call and the stores). -/
structure Task where
  category : String
  service : Ref
  pc : TaskPC
  prevStatus : probe.Status
  status : probe.Status
  message : String
deriving DecidableEq, Repr

/-- The goroutine as `go func(...){...}(category, service)` creates it. -/
def Task.new (category : String) (service : Ref) : Task :=
  { category := category, service := service, pc := .readPrev,
    prevStatus := "", status := "", message := "" }

/-- One statement of the goroutine body
```go
prevStatus := service.Status
service.Status, service.Message = service.Prober.Probe()
if prevStatus != service.Status {
	if service.Status == probe.StatusError {
		m.AlertAll(category, service)
	} else if prevStatus == probe.StatusError {
		m.AlertAll(category, service)
	}
}
```
The tuple assignment is three steps: the call, the store into `Status`, the store
into `Message` (Go assigns left to right after evaluating the call).  The `if` with
the `AlertAll` it may reach is one step.  Nothing runs in a process that has
panicked. -/
def taskStep {P A : Type} (env : Env P A) (w : World P A) (t : Task) : World P A × Task :=
  if w.panicked then (w, t) else
  match t.pc with
  | .readPrev =>
    match getService w.m.Services t.service with
    | none => ({ w with panicked := true }, t)
    | some svc => (w, { t with prevStatus := svc.Status, pc := .callProbe })
  | .callProbe =>
    match getService w.m.Services t.service with
    | none => ({ w with panicked := true }, t)
    | some svc =>
      let r := env.Probe svc.Prober
      ({ w.write t.service (fun s => { s with Prober := r.1 }) with
          probed := w.probed ++ [(t.service, r.2.1, r.2.2)] },
       { t with status := r.2.1, message := r.2.2, pc := .writeStatus })
  | .writeStatus =>
    (w.write t.service (fun s => { s with Status := t.status }),
     { t with pc := .writeMessage })
  | .writeMessage =>
    (w.write t.service (fun s => { s with Message := t.message }),
     { t with pc := .decide })
  | .decide =>
    match getService w.m.Services t.service with
    | none => ({ w with panicked := true }, t)
    | some svc =>
      if t.prevStatus ≠ svc.Status then
        if svc.Status = StatusError then
          (AlertAll env w t.category t.service, { t with pc := .done })
        else if t.prevStatus = StatusError then
          (AlertAll env w t.category t.service, { t with pc := .done })
        else (w, { t with pc := .done })
      else (w, { t with pc := .done })
  | .done => (w, t)

/-- The goroutine body run from its first statement to its return with no other
goroutine in between: the probe of one service, completed. -/
def probeService {P A : Type} (env : Env P A) (w : World P A) (category : String)
    (service : Ref) : World P A :=
  let x0 := (w, Task.new category service)
  let x1 := taskStep env x0.1 x0.2
  let x2 := taskStep env x1.1 x1.2
  let x3 := taskStep env x2.1 x2.2
  let x4 := taskStep env x3.1 x3.2
  (taskStep env x4.1 x4.2).1

/-- Successive probes of one service, each completed before the next starts; the
list holds the state after each round. -/
def probeRounds {P A : Type} (env : Env P A) (category : String) (service : Ref) :
    Nat → World P A → List (World P A)
  | 0, _ => []
  | n + 1, w =>
    let w1 := probeService env w category service
    w1 :: probeRounds env category service n w1

/-- The rounds in which `AlertAll` was invoked, numbered from `k`, read off the
states after each round (`w` is the state before the first of them). -/
def alertRounds {P A : Type} : Nat → World P A → List (World P A) → List Nat
  | _, _, [] => []
  | k, w, w1 :: rest =>
    if w.alertAlls < w1.alertAlls then k :: alertRounds (k + 1) w1 rest
    else alertRounds (k + 1) w1 rest

/-- The statuses the next `n` calls of `Probe()` on the prober `p` return, in order. -/
def probeStatuses {P A : Type} (env : Env P A) : P → Nat → List probe.Status
  | _, 0 => []
  | p, n + 1 => (env.Probe p).2.1 :: probeStatuses env (env.Probe p).1 n

/-- The rule of the specification for one service: given the status before the first
round and the statuses of the rounds numbered from `k`, the rounds at which exactly one
of the preceding status and the round's status is `ERROR`. -/
def crossings : Nat → probe.Status → List probe.Status → List Nat
  | _, _, [] => []
  | k, prev, s :: rest =>
    if (prev = StatusError ∧ s ≠ StatusError) ∨ (prev ≠ StatusError ∧ s = StatusError)
    then k :: crossings (k + 1) s rest
    else crossings (k + 1) s rest

/-! ## `probeAll` and `ProbeLoop` -/

/-- The places at which the goroutine running `ProbeLoop` can stand. -/
inductive MainPC where
  /-- Before the first `m.probeAll()`. -/
  | start
  /-- Inside `probeAll`, after `m.LastUpdate = time.Now()`, before the `go`
  statement for the first service of `todo`; `first` tells whether this is the call
  made before the loop. -/
  | launching (first : Bool) (todo : List Ref)
  /-- Before the statement `m.LastUpdate = time.Now()` of `ProbeLoop`. -/
  | markUpdate
  /-- At `for range c`, waiting for the next tick. -/
  | tick
deriving DecidableEq, Repr

/-- A process running `ProbeLoop`: the shared state, where the loop stands, and the
goroutines launched so far (in launch order).  Two fields only record history:
`rounds` counts the probing rounds started, `roundStart` is the clock reading taken
at the start of the most recently started round. -/
structure Sys (P A : Type) where
  w : World P A
  mainpc : MainPC
  tasks : List Task
  rounds : Nat
  roundStart : Time
deriving DecidableEq, Repr

/-- The process at the call `m.ProbeLoop(interval)`. -/
def Sys.start {P A : Type} (m : Manager P A) : Sys P A :=
  { w := World.start m, mainpc := .start, tasks := [], rounds := 0, roundStart := zeroTime }

/-- The first statement of `probeAll` after the debug log, `m.LastUpdate = time.Now()`:
a probing round starts. -/
def startRound {P A : Type} (env : Env P A) (s : Sys P A) : Sys P A :=
  { s with
    w := { s.w with m := { s.w.m with LastUpdate := env.Now s.w.clock },
                    clock := s.w.clock + 1 },
    rounds := s.rounds + 1,
    roundStart := env.Now s.w.clock }

/-- One `go func(category, service) {...}(category, service)`: a goroutine is created
and nothing else changes. -/
def launch {P A : Type} (s : Sys P A) (service : Ref) : Sys P A :=
  { s with tasks := s.tasks ++ [Task.new service.category service] }

/-- The statement `m.LastUpdate = time.Now()` of `ProbeLoop`. -/
def markUpdate {P A : Type} (env : Env P A) (s : Sys P A) : Sys P A :=
  { s with
    w := { s.w with m := { s.w.m with LastUpdate := env.Now s.w.clock },
                    clock := s.w.clock + 1 } }

/-- Go `(m *Manager) probeAll()` run to its return: the round starts, then one
goroutine is launched per service.  (Go ranges over the map in an unspecified order;
a launch changes nothing but the list of goroutines.) -/
def probeAll {P A : Type} (env : Env P A) (s : Sys P A) : Sys P A :=
  (allRefs s.w.m.Services).foldl launch (startRound env s)

/-- Go `(m *Manager) ProbeLoop(interval)` up to the moment it waits for tick number
`ticks + 1`, with no goroutine scheduled in between:
```go
m.probeAll()
m.LastUpdate = time.Now()
c := time.Tick(interval)
for range c { m.probeAll() }
```
-/
def ProbeLoop {P A : Type} (env : Env P A) (s : Sys P A) : Nat → Sys P A
  | 0 => markUpdate env (probeAll env s)
  | ticks + 1 => probeAll env (ProbeLoop env s ticks)

/-- One step of the goroutine running `ProbeLoop`. -/
def mainStep {P A : Type} (env : Env P A) (s : Sys P A) : Sys P A :=
  match s.mainpc with
  | .start =>
    { startRound env s with mainpc := .launching true (allRefs s.w.m.Services) }
  | .launching first [] =>
    { s with mainpc := if first then .markUpdate else .tick }
  | .launching first (r :: todo) =>
    { launch s r with mainpc := .launching first todo }
  | .markUpdate => { markUpdate env s with mainpc := .tick }
  | .tick =>
    { startRound env s with mainpc := .launching false (allRefs s.w.m.Services) }

/-- Who takes the next step: the loop, or the `i`-th goroutine launched. -/
inductive Choice where
  | main
  | task (i : Nat)
deriving DecidableEq, Repr

/-- One step of the process.  Nothing runs once a goroutine has panicked. -/
def step {P A : Type} (env : Env P A) (s : Sys P A) (c : Choice) : Sys P A :=
  if s.w.panicked then s else
  match c with
  | .main => mainStep env s
  | .task i =>
    match s.tasks[i]? with
    | none => s
    | some t =>
      let x := taskStep env s.w t
      { s with w := x.1, tasks := s.tasks.set i x.2 }

/-- An interleaving: the process after the steps of `sched`, taken in order. -/
def run {P A : Type} (env : Env P A) (s : Sys P A) (sched : List Choice) : Sys P A :=
  sched.foldl (step env) s

/-! ## Invariants of the process -/

/-- How `LastUpdate` relates to the clock reading `roundStart` taken at the start of the
most recently started round, by the place at which the loop stands: they are equal
everywhere except, possibly, while the loop waits for its first tick, after the
statement `m.LastUpdate = time.Now()` of `ProbeLoop` has run. -/
def loopInv {P A : Type} (s : Sys P A) : Prop :=
  match s.mainpc with
  | .start => s.rounds = 0
  | .launching true _ => s.rounds = 1 ∧ s.w.m.LastUpdate = s.roundStart
  | .markUpdate => s.rounds = 1 ∧ s.w.m.LastUpdate = s.roundStart
  | .tick => 1 ≤ s.rounds ∧ (2 ≤ s.rounds → s.w.m.LastUpdate = s.roundStart)
  | .launching false _ => 2 ≤ s.rounds ∧ s.w.m.LastUpdate = s.roundStart

/-- What a snapshot read of the service behind `r` observes: its `Status` and its
`Message`. -/
def pairAt {P A : Type} (w : World P A) (r : Ref) : Option (probe.Status × String) :=
  (getService w.m.Services r).map (fun svc => (svc.Status, svc.Message))

/-- Some goroutine probing the service behind `r` has stored its status and not yet its
message. -/
def midStore {P A : Type} (s : Sys P A) (r : Ref) : Bool :=
  s.tasks.any (fun t => decide (t.service = r) && decide (t.pc = .writeMessage))

/-- The step `c` is not a store of a status into a service for which another probe
stands between its two stores. -/
def storeAllowed {P A : Type} (s : Sys P A) (c : Choice) : Bool :=
  match c with
  | .main => true
  | .task i =>
    match s.tasks[i]? with
    | none => true
    | some t => if t.pc = .writeStatus then !midStore s t.service else true

/-- An interleaving in which the two stores of a probe are never separated by a store
of the status of another probe of the same service. -/
def serialised {P A : Type} (env : Env P A) (s : Sys P A) : List Choice → Bool
  | [] => true
  | c :: cs => storeAllowed s c && serialised env (step env s c) cs

/-- The pair `p` is the pair the service behind `r` had in the manager `m` the process
started with, or the two results of one `Probe()` call made for that service. -/
def pairOfOneProbe {P A : Type} (m : Manager P A) (w : World P A) (r : Ref)
    (p : probe.Status × String) : Prop :=
  pairAt (World.start m) r = some p ∨ (r, p.1, p.2) ∈ w.probed

/-- The invariant of serialised interleavings.

* `logged`: a goroutine that holds results of `Probe()` yet to be stored holds the
  results of one recorded call.
* `unique`: at most one goroutine per service stands between its two stores.
* `status`: the status of a service is the one stored by the goroutine that stands
  between its two stores.
* `pair`: a service for which no goroutine stands between its two stores shows the
  initial pair or the results of one call. -/
structure PairInv {P A : Type} (m : Manager P A) (s : Sys P A) : Prop where
  logged : ∀ (i : Nat) (t : Task), s.tasks[i]? = some t → t.pc = .writeStatus ∨ t.pc = .writeMessage →
    (t.service, t.status, t.message) ∈ s.w.probed
  unique : ∀ (i j : Nat) (ti tj : Task), s.tasks[i]? = some ti → s.tasks[j]? = some tj →
    ti.pc = .writeMessage → tj.pc = .writeMessage → ti.service = tj.service → i = j
  status : ∀ (i : Nat) (t : Task) (p : probe.Status × String), s.tasks[i]? = some t → t.pc = .writeMessage →
    pairAt s.w t.service = some p → p.1 = t.status
  pair : ∀ r p, pairAt s.w r = some p → midStore s r = false → pairOfOneProbe m s.w r p

/-- The `Status` a read through the pointer `r` finds. -/
def statusAt {P A : Type} (w : World P A) (r : Ref) : Option probe.Status :=
  (getService w.m.Services r).map (fun svc => svc.Status)

/-- The step `c` is not a store into the `Status` of the service behind `r` made by a
goroutine other than the `i`-th. -/
def statusKept {P A : Type} (s : Sys P A) (i : Nat) (r : Ref) (c : Choice) : Bool :=
  match c with
  | .main => true
  | .task j =>
    if j = i then true else
    match s.tasks[j]? with
    | none => true
    | some t => !(decide (t.pc = .writeStatus) && decide (t.service = r))

/-- An interleaving in which no goroutine other than the `i`-th stores into the
`Status` of the service behind `r`.  Every other step of every goroutine is allowed. -/
def undisturbed {P A : Type} (env : Env P A) (s : Sys P A) (i : Nat) (r : Ref) :
    List Choice → Bool
  | [] => true
  | c :: cs => statusKept s i r c && undisturbed env (step env s c) i r cs

/-- What is known of the `i`-th goroutine while it goes from its store into `Status` to
its return, in a live process: its arguments and local values are those of `t`, and
once it has stored its status the service shows that status. -/
def ownStatus {P A : Type} (t : Task) (i : Nat) (s : Sys P A) : Prop :=
  s.w.panicked = false →
    ∃ ti : Task, s.tasks[i]? = some ti ∧
      ti.category = t.category ∧ ti.service = t.service ∧ ti.prevStatus = t.prevStatus ∧
      ti.status = t.status ∧ ti.message = t.message ∧
      (ti.pc = .writeStatus ∨ ti.pc = .done ∨
        ((ti.pc = .writeMessage ∨ ti.pc = .decide) ∧ statusAt s.w t.service = some t.status))

/-! ## A scripted environment

A concrete environment, small enough to evaluate, on which the theorems below are
instantiated.  A prober is the list of results it has yet to return; an alerter is the
name of its channel. -/

/-- The probers of the scripted environment: the results still to be returned. -/
abbrev Script := List (probe.Status × String)

/-- The scripted environment.  The only probe type is `"script"`: `Init` fails on an
empty target and otherwise loads the script from the options of the declaration;
`Probe` returns the next result of the script.  The only alert type is `"mail"`.
The clock reads `1000, 1001, ...`. -/
def scriptEnv : Env Script String :=
  { NewKubeClient := fun _ => { id := 0 }
    ProbeConstructors := fun t => if t = "script" then some (fun _ => []) else none
    SetProbeConfigDefaults := fun c =>
      { c with Warning := if c.Warning = 0 then 500000000 else c.Warning }
    Init := fun p c => if c.Target = "" then (p, some "missing target") else (c.Options, none)
    Probe := fun p =>
      match p with
      | [] => ([], (StatusOK, "idle"))
      | r :: rest => (rest, r)
    AlertConstructors := fun t =>
      if t = "mail" then some (fun c => "mail to " ++ toString c.Options.length) else none
    Now := fun i => 1000 + i
    Format := fun t => toString t }

/-- A probe declaration of the scripted environment. -/
def scriptProbe (category name target : String) (script : Script) : ProbeConfig :=
  { Type_ := "script", Category := category, Name := name,
    Config := { Target := target, Options := script, Warning := 0, Fatal := 0 } }

/-- One service `web/a` that will report `OK, OK, ERROR, ERROR, OK`. -/
def fiveRounds : ProbeConfig :=
  scriptProbe "web" "a" "host-a"
    [("OK", "1 ms"), ("OK", "2 ms"), ("ERROR", "down"), ("ERROR", "down"), ("OK", "3 ms")]

/-- One service `web/a` that will report `OK, WARNING, OK`. -/
def threeRounds : ProbeConfig :=
  scriptProbe "web" "a" "host-a" [("OK", "1 ms"), ("WARNING", "900 ms"), ("OK", "2 ms")]

/-- A hand-built manager: the service `web/a`, last seen `OK`, about to report
`ERROR`, and one alerter. -/
def handManager : Manager Script String :=
  { logger := { id := 1 }, kubeClient := { id := 0 }, LastUpdate := zeroTime,
    Services := [("web", [{ Prober := [("ERROR", "down")], Name := "a", Status := "OK",
                            Message := "1 ms", Target := "host-a" }])],
    Alerts := [some "mail", some "chat"] }

/-- A configuration with the service of `fiveRounds` and one alert declaration. -/
def oneAlertConfig : Config :=
  { Probes := [fiveRounds], Alerts := [{ Type_ := "mail", Options := [] }] }

/-- A configuration with the service of `threeRounds` and one alert declaration. -/
def threeRoundsConfig : Config :=
  { Probes := [threeRounds], Alerts := [{ Type_ := "mail", Options := [] }] }

/-- A configuration with the service of `fiveRounds` and no alert declaration. -/
def noAlertConfig : Config :=
  { Probes := [fiveRounds], Alerts := [] }

/-- Three probe declarations, the second of which fails to initialise (its target is
empty), and one alert declaration. -/
def failingInitConfig : Config :=
  { Probes := [fiveRounds, scriptProbe "web" "b" "" [], scriptProbe "db" "c" "host-c" []],
    Alerts := [{ Type_ := "mail", Options := [] }] }

/-- A probe declaration that fails to initialise, followed by one of the unregistered
type `"ping"`. -/
def unknownAfterFailingInit : Config :=
  { Probes := [scriptProbe "web" "b" "" [],
               { Type_ := "ping", Category := "web", Name := "c",
                 Config := { Target := "host-c", Options := [], Warning := 0, Fatal := 0 } }],
    Alerts := [] }

/-- A good probe declaration followed by one of the unregistered type `"ping"`. -/
def unknownProbeConfig : Config :=
  { Probes := [fiveRounds,
               { Type_ := "ping", Category := "web", Name := "c",
                 Config := { Target := "host-c", Options := [], Warning := 0, Fatal := 0 } },
               threeRounds],
    Alerts := [{ Type_ := "pager", Options := [] }] }

/-- A good probe declaration, a good alert declaration and one of the unregistered
type `"pager"`. -/
def unknownAlertConfig : Config :=
  { Probes := [fiveRounds],
    Alerts := [{ Type_ := "mail", Options := [] }, { Type_ := "pager", Options := [] }] }

/-- Three services in two categories, declared in the order `web/a`, `db/c`, `web/b`. -/
def twoCategories : Config :=
  { Probes := [fiveRounds, scriptProbe "db" "c" "host-c" [], scriptProbe "web" "b" "host-b" []],
    Alerts := [] }

/-- The schedule of `ProbeLoop` on `handManager` up to the launch of the one probe of
the first round, then that probe up to its store into `Status`. -/
def midStoreSchedule : List Choice :=
  [.main, .main, .task 0, .task 0, .task 0]

/-- The schedule of `ProbeLoop` on `handManager` through two rounds whose probes of the
one service overlap: both probes call `Probe()`, then the first stores its status, the
second stores its status and its message, the first stores its message, and both
decide. -/
def overlapSchedule : List Choice :=
  [.main, .main, .main, .main, .main, .main, .main,
   .task 0, .task 0, .task 1, .task 1,
   .task 0, .task 1, .task 1, .task 0,
   .task 0, .task 1]

/-- The same two rounds with the second probe started after the first has finished. -/
def inTurnSchedule : List Choice :=
  [.main, .main, .main, .main, .main, .main, .main,
   .task 0, .task 0, .task 0, .task 0, .task 0,
   .task 1, .task 1, .task 1, .task 1, .task 1]

/-- The schedule of `ProbeLoop` on `handManager` up to the moment the probe of the first
round has read the previous status and its call of `Probe()` has returned. -/
def probedSchedule : List Choice :=
  [.main, .main, .task 0, .task 0]

/-- The continuation of `probedSchedule` in which the loop goes on to launch the probe of
the second round, and that probe reads the status and calls `Probe()`, while the first
probe makes its two stores. -/
def keptSchedule : List Choice :=
  [.main, .task 0, .main, .main, .main, .task 1, .task 0, .task 1]

end manager

/-! # Theorems -/

namespace probe

/-! ## `EvaluateDuration` -/

theorem wrap64_of_isInt64 (x : Int) (h : isInt64 x) : wrap64 x = x := by
  unfold isInt64 at h
  unfold wrap64
  omega

/-- Truncated division by one million: the magnitude is the floor of the magnitudes'
quotient and the sign follows the dividend. -/
theorem tdiv_million_bounds (d : Int) :
    (Int.tdiv d 1000000).natAbs = d.natAbs / 1000000 ∧
    (0 ≤ d → 0 ≤ Int.tdiv d 1000000) ∧ (d ≤ 0 → Int.tdiv d 1000000 ≤ 0) := by
  refine ⟨?_, ?_, ?_⟩
  · rw [Int.natAbs_tdiv]; rfl
  · intro h; exact Int.tdiv_nonneg h (by norm_num)
  · intro h
    have := Int.tdiv_nonneg (a := -d) (b := 1000000) (by omega) (by norm_num)
    rw [Int.neg_tdiv] at this
    omega

theorem isInt64_tdiv_million (d : Int) (h : isInt64 d) : isInt64 (Int.tdiv d 1000000) := by
  have hb := tdiv_million_bounds d
  unfold isInt64 at *
  have h1 : d.natAbs / 1000000 ≤ d.natAbs := Nat.div_le_self _ _
  omega

/-- C10.  For every `int64` duration `d` and every threshold `w`,
`EvaluateDuration d w` has status `WARNING` when `d ≥ w` and `OK` when `d < w`, never
`ERROR` or the unknown status, and its message is `q` in decimal followed by `" ms"`,
where `q` is `d / 1000000` truncated toward zero: the magnitude of `q` is the floor of
`|d| / 1000000` and `q` has the sign of `d`. -/
theorem EvaluateDuration_spec (d w : Int) (hd : isInt64 d) (hw : isInt64 w) :
    (w ≤ d → (EvaluateDuration d w).1 = StatusWarning) ∧
    (d < w → (EvaluateDuration d w).1 = StatusOK) ∧
    (EvaluateDuration d w).1 ≠ StatusError ∧
    (EvaluateDuration d w).1 ≠ StatusUnknown ∧
    ∃ q : Int, q.natAbs = d.natAbs / 1000000 ∧ (0 ≤ d → 0 ≤ q) ∧ (d ≤ 0 → q ≤ 0) ∧
      (EvaluateDuration d w).2 = sprintfD q ++ " ms" := by
  have _ := hw
  have hq : int64Div (Nanoseconds d) 1000000 = Int.tdiv d 1000000 := by
    unfold int64Div Nanoseconds
    exact wrap64_of_isInt64 _ (isInt64_tdiv_million d hd)
  have hb := tdiv_million_bounds d
  refine ⟨?_, ?_, ?_, ?_, Int.tdiv d 1000000, hb.1, hb.2.1, hb.2.2, ?_⟩
  · intro h; simp [EvaluateDuration, h]
  · intro h; simp [EvaluateDuration, not_le.mpr h]
  · by_cases h : w ≤ d
    · simp only [EvaluateDuration, ge_iff_le, h, if_true]; decide
    · simp only [EvaluateDuration, ge_iff_le, h, if_false]; decide
  · by_cases h : w ≤ d
    · simp only [EvaluateDuration, ge_iff_le, h, if_true]; decide
    · simp only [EvaluateDuration, ge_iff_le, h, if_false]; decide
  · simp only [EvaluateDuration, hq]

/-- A duration of -1.5 ms against a threshold of 3 ns: status `OK`, message `"-1 ms"`
(truncation toward zero, not toward minus infinity). -/
theorem EvaluateDuration_spec_witness :
    isInt64 (-1500000) ∧ isInt64 3 ∧ EvaluateDuration (-1500000) 3 = ("OK", "-1 ms") ∧
    ((-1500000 : Int) < 3 → (EvaluateDuration (-1500000) 3).1 = StatusOK) :=
  ⟨by decide, by decide, by decide,
   (EvaluateDuration_spec (-1500000) 3 (by decide) (by decide)).2.1⟩

end probe

namespace manager

open probe

/-! ## The `Services` map -/

theorem mapGet_mapSet {P : Type} (m : ServiceMap P) (k c : String) (v : List (Service P)) :
    mapGet (mapSet m k v) c = if k = c then some v else mapGet m c := by
  induction m with
  | nil => simp [mapSet, mapGet]
  | cons kv rest ih =>
    obtain ⟨k', v'⟩ := kv
    by_cases h : k' = k
    · subst h
      by_cases hc : k' = c <;> simp [mapSet, mapGet, hc]
    · by_cases hc : k' = c
      · subst hc
        simp [mapSet, mapGet, h, Ne.symm h]
      · simp [mapSet, mapGet, h, hc, ih]

theorem servicesAt_mapSet {P : Type} (m : ServiceMap P) (k c : String)
    (v : List (Service P)) :
    servicesAt (mapSet m k v) c = if k = c then v else servicesAt m c := by
  unfold servicesAt
  rw [mapGet_mapSet]
  split <;> rfl

theorem getService_updateService_same {P : Type} (m : ServiceMap P) (r : Ref)
    (f : Service P → Service P) (svc : Service P) (h : getService m r = some svc) :
    getService (updateService m r f) r = some (f svc) := by
  have hlt : r.index < (servicesAt m r.category).length := by
    unfold getService at h
    exact (List.getElem?_eq_some_iff.mp h).1
  simp only [updateService, h]
  unfold getService
  rw [servicesAt_mapSet]
  simp [hlt]

theorem getService_updateService_other {P : Type} (m : ServiceMap P) (r r' : Ref)
    (f : Service P → Service P) (h : r' ≠ r) :
    getService (updateService m r f) r' = getService m r' := by
  unfold updateService
  cases hg : getService m r with
  | none => rfl
  | some svc =>
    simp only
    unfold getService
    rw [servicesAt_mapSet]
    by_cases hc : r.category = r'.category
    · have hi : r.index ≠ r'.index := by
        intro hi
        apply h
        cases r; cases r'; simp_all
      simp [hc, List.getElem?_set_ne hi]
    · simp [hc]

end manager

namespace manager

open probe

/-! ## `AlertAll`: what it leaves alone -/

theorem alertLoop_frame {P A : Type} (category : String) (service : Ref) (date : String)
    (alerts : List (Option A)) (w : World P A) :
    (alertLoop category service date alerts w).m = w.m ∧
    (alertLoop category service date alerts w).clock = w.clock ∧
    (alertLoop category service date alerts w).alertAlls = w.alertAlls ∧
    (alertLoop category service date alerts w).probed = w.probed := by
  induction alerts generalizing w with
  | nil => simp [alertLoop]
  | cons a rest ih =>
    cases a with
    | none => simp [alertLoop]
    | some alerter =>
      cases hg : getService w.m.Services service with
      | none => simp [alertLoop, hg]
      | some svc =>
        simp only [alertLoop, hg]
        have := ih { w with calls := w.calls ++
            [{ alerter := alerter, status := svc.Status, category := category,
               name := svc.Name, message := svc.Message, target := svc.Target,
               date := date }] }
        simpa using this

theorem AlertAll_frame {P A : Type} (env : Env P A) (w : World P A) (category : String)
    (service : Ref) :
    (AlertAll env w category service).m = w.m ∧
    (AlertAll env w category service).clock = w.clock + 1 ∧
    (AlertAll env w category service).alertAlls = w.alertAlls + 1 ∧
    (AlertAll env w category service).probed = w.probed := by
  unfold AlertAll
  have := alertLoop_frame category service (env.Format (env.Now w.clock)) w.m.Alerts
    { w with clock := w.clock + 1, alertAlls := w.alertAlls + 1 }
  simpa using this

/-! ## The statements of the goroutine, one at a time -/

theorem World.write_valid {P A : Type} (w : World P A) (r : Ref)
    (f : Service P → Service P) (svc : Service P)
    (hsvc : getService w.m.Services r = some svc) :
    (w.write r f).m.Services = updateService w.m.Services r f ∧
    getService (w.write r f).m.Services r = some (f svc) ∧
    (∀ r', r' ≠ r → getService (w.write r f).m.Services r' = getService w.m.Services r') ∧
    (w.write r f).m.Alerts = w.m.Alerts ∧ (w.write r f).m.LastUpdate = w.m.LastUpdate ∧
    (w.write r f).clock = w.clock ∧ (w.write r f).alertAlls = w.alertAlls ∧
    (w.write r f).calls = w.calls ∧ (w.write r f).probed = w.probed ∧
    (w.write r f).panicked = w.panicked := by
  have e : w.write r f =
      { w with m := { w.m with Services := updateService w.m.Services r f } } := by
    simp only [World.write, hsvc]
  rw [e]
  refine ⟨rfl, getService_updateService_same _ _ _ _ hsvc, ?_, rfl, rfl, rfl, rfl, rfl, rfl, rfl⟩
  intro r' hr
  exact getService_updateService_other _ _ _ _ hr

theorem taskStep_readPrev {P A : Type} (env : Env P A) (w : World P A) (t : Task)
    (svc : Service P) (hlive : w.panicked = false) (hpc : t.pc = .readPrev)
    (hsvc : getService w.m.Services t.service = some svc) :
    taskStep env w t = (w, { t with prevStatus := svc.Status, pc := .callProbe }) := by
  simp only [taskStep, hlive, hpc, hsvc]
  rfl

theorem taskStep_callProbe {P A : Type} (env : Env P A) (w : World P A) (t : Task)
    (svc : Service P) (hlive : w.panicked = false) (hpc : t.pc = .callProbe)
    (hsvc : getService w.m.Services t.service = some svc) :
    taskStep env w t =
      ({ w.write t.service (fun s => { s with Prober := (env.Probe svc.Prober).1 }) with
          probed := w.probed ++
            [(t.service, (env.Probe svc.Prober).2.1, (env.Probe svc.Prober).2.2)] },
       { t with status := (env.Probe svc.Prober).2.1,
                message := (env.Probe svc.Prober).2.2, pc := .writeStatus }) := by
  simp only [taskStep, hlive, hpc, hsvc]
  rfl

theorem taskStep_writeStatus {P A : Type} (env : Env P A) (w : World P A) (t : Task)
    (hlive : w.panicked = false) (hpc : t.pc = .writeStatus) :
    taskStep env w t =
      (w.write t.service (fun s => { s with Status := t.status }),
       { t with pc := .writeMessage }) := by
  simp only [taskStep, hlive, hpc]
  rfl

theorem taskStep_writeMessage {P A : Type} (env : Env P A) (w : World P A) (t : Task)
    (hlive : w.panicked = false) (hpc : t.pc = .writeMessage) :
    taskStep env w t =
      (w.write t.service (fun s => { s with Message := t.message }),
       { t with pc := .decide }) := by
  simp only [taskStep, hlive, hpc]
  rfl

theorem taskStep_decide {P A : Type} (env : Env P A) (w : World P A) (t : Task)
    (svc : Service P) (hlive : w.panicked = false) (hpc : t.pc = .decide)
    (hsvc : getService w.m.Services t.service = some svc) :
    taskStep env w t =
      (if t.prevStatus ≠ svc.Status ∧ (svc.Status = StatusError ∨ t.prevStatus = StatusError)
        then AlertAll env w t.category t.service else w,
       { t with pc := .done }) := by
  simp only [taskStep, hlive, hpc, hsvc]
  split_ifs <;> first | rfl | (exfalso; tauto)

/-! ## One completed probe -/

/-- A completed probe of the service at `r`: the state `w1` after the call and the two
stores, and then `AlertAll` exactly when the status crossed the `ERROR` boundary. -/
theorem probeService_eq {P A : Type} (env : Env P A) (w : World P A) (category : String)
    (r : Ref) (svc : Service P) (hlive : w.panicked = false)
    (hsvc : getService w.m.Services r = some svc) :
    ∃ w1 : World P A,
      getService w1.m.Services r =
        some { svc with Prober := (env.Probe svc.Prober).1,
                        Status := (env.Probe svc.Prober).2.1,
                        Message := (env.Probe svc.Prober).2.2 } ∧
      (∀ r', r' ≠ r → getService w1.m.Services r' = getService w.m.Services r') ∧
      w1.m.Alerts = w.m.Alerts ∧ w1.m.LastUpdate = w.m.LastUpdate ∧
      w1.clock = w.clock ∧ w1.alertAlls = w.alertAlls ∧ w1.calls = w.calls ∧
      w1.probed = w.probed ++ [(r, (env.Probe svc.Prober).2.1, (env.Probe svc.Prober).2.2)] ∧
      w1.panicked = false ∧
      probeService env w category r =
        if svc.Status ≠ (env.Probe svc.Prober).2.1 ∧
            ((env.Probe svc.Prober).2.1 = StatusError ∨ svc.Status = StatusError)
        then AlertAll env w1 category r else w1 := by
  -- the goroutine after each of its first four statements
  let t1 : Task := { Task.new category r with prevStatus := svc.Status, pc := .callProbe }
  let wa : World P A :=
    { w.write r (fun s => { s with Prober := (env.Probe svc.Prober).1 }) with
      probed := w.probed ++ [(r, (env.Probe svc.Prober).2.1, (env.Probe svc.Prober).2.2)] }
  let t2 : Task := { t1 with status := (env.Probe svc.Prober).2.1,
                             message := (env.Probe svc.Prober).2.2, pc := .writeStatus }
  let wb : World P A := wa.write r (fun s => { s with Status := (env.Probe svc.Prober).2.1 })
  let t3 : Task := { t2 with pc := .writeMessage }
  let wc : World P A := wb.write r (fun s => { s with Message := (env.Probe svc.Prober).2.2 })
  let t4 : Task := { t3 with pc := .decide }
  have ha := World.write_valid w r (fun s => { s with Prober := (env.Probe svc.Prober).1 })
    svc hsvc
  have hag : getService wa.m.Services r = some { svc with Prober := (env.Probe svc.Prober).1 } :=
    ha.2.1
  have hb := World.write_valid wa r (fun s => { s with Status := (env.Probe svc.Prober).2.1 })
    _ hag
  have hc := World.write_valid wb r (fun s => { s with Message := (env.Probe svc.Prober).2.2 })
    _ hb.2.1
  have la : wa.panicked = false := by
    show (w.write r _).panicked = false
    rw [ha.2.2.2.2.2.2.2.2.2]; exact hlive
  have lb : wb.panicked = false := by rw [hb.2.2.2.2.2.2.2.2.2]; exact la
  have lc : wc.panicked = false := by rw [hc.2.2.2.2.2.2.2.2.2]; exact lb
  have e1 : taskStep env w (Task.new category r) = (w, t1) :=
    taskStep_readPrev env w (Task.new category r) svc hlive rfl hsvc
  have e2 : taskStep env w t1 = (wa, t2) := taskStep_callProbe env w t1 svc hlive rfl hsvc
  have e3 : taskStep env wa t2 = (wb, t3) := taskStep_writeStatus env wa t2 la rfl
  have e4 : taskStep env wb t3 = (wc, t4) := taskStep_writeMessage env wb t3 lb rfl
  have e5 := taskStep_decide env wc t4 _ lc rfl hc.2.1
  refine ⟨wc, hc.2.1, ?_, ?_, ?_, ?_, ?_, ?_, ?_, lc, ?_⟩
  · intro r' hr
    rw [hc.2.2.1 r' hr, hb.2.2.1 r' hr]
    exact ha.2.2.1 r' hr
  · rw [hc.2.2.2.1, hb.2.2.2.1]; exact ha.2.2.2.1
  · rw [hc.2.2.2.2.1, hb.2.2.2.2.1]; exact ha.2.2.2.2.1
  · rw [hc.2.2.2.2.2.1, hb.2.2.2.2.2.1]; exact ha.2.2.2.2.2.1
  · rw [hc.2.2.2.2.2.2.1, hb.2.2.2.2.2.2.1]; exact ha.2.2.2.2.2.2.1
  · rw [hc.2.2.2.2.2.2.2.1, hb.2.2.2.2.2.2.2.1]; exact ha.2.2.2.2.2.2.2.1
  · rw [hc.2.2.2.2.2.2.2.2.1, hb.2.2.2.2.2.2.2.2.1]
  · simp only [probeService, e1, e2, e3, e4, e5]
    rfl

/-- The test of the goroutine, `prevStatus != status` and then one of the two being
`ERROR`, holds exactly when one of the two statuses is `ERROR` and the other is not. -/
theorem crossing_iff (p s : Status) :
    (p ≠ s ∧ (s = StatusError ∨ p = StatusError)) ↔
      ((p = StatusError ∧ s ≠ StatusError) ∨ (p ≠ StatusError ∧ s = StatusError)) := by
  constructor
  · rintro ⟨hne, h | h⟩
    · right; exact ⟨fun hp => hne (hp.trans h.symm), h⟩
    · left; exact ⟨h, fun hs => hne (h.trans hs.symm)⟩
  · rintro (⟨hp, hs⟩ | ⟨hp, hs⟩)
    · exact ⟨fun e => hs (e ▸ hp), Or.inr hp⟩
    · exact ⟨fun e => hp (e ▸ hs), Or.inl hs⟩

/-- The probe of one service run from its first statement to its return with no step
of another goroutine in between, in a live process: the result of `Probe()` is stored in
the service, and `AlertAll` is then invoked for that service (and its category) if and
only if exactly one of the previous status and the new status is `ERROR`; it is invoked
at most once. -/
theorem probeService_alerts_iff {P A : Type} (env : Env P A) (w : World P A)
    (category : String) (r : Ref) (svc : Service P) (hlive : w.panicked = false)
    (hsvc : getService w.m.Services r = some svc) :
    ((probeService env w category r).alertAlls = w.alertAlls + 1 ↔
      (svc.Status = StatusError ∧ (env.Probe svc.Prober).2.1 ≠ StatusError) ∨
      (svc.Status ≠ StatusError ∧ (env.Probe svc.Prober).2.1 = StatusError)) ∧
    ((probeService env w category r).alertAlls = w.alertAlls ∨
      (probeService env w category r).alertAlls = w.alertAlls + 1) ∧
    getService (probeService env w category r).m.Services r =
      some { svc with Prober := (env.Probe svc.Prober).1,
                      Status := (env.Probe svc.Prober).2.1,
                      Message := (env.Probe svc.Prober).2.2 } ∧
    ∃ w1 : World P A, w1.alertAlls = w.alertAlls ∧
      getService w1.m.Services r = getService (probeService env w category r).m.Services r ∧
      probeService env w category r =
        if (svc.Status = StatusError ∧ (env.Probe svc.Prober).2.1 ≠ StatusError) ∨
           (svc.Status ≠ StatusError ∧ (env.Probe svc.Prober).2.1 = StatusError)
        then AlertAll env w1 category r else w1 := by
  obtain ⟨w1, hg, -, -, -, -, hcount, -, -, -, heq⟩ :=
    probeService_eq env w category r svc hlive hsvc
  have hcond := crossing_iff svc.Status (env.Probe svc.Prober).2.1
  have hA := AlertAll_frame env w1 category r
  by_cases hx : (svc.Status = StatusError ∧ (env.Probe svc.Prober).2.1 ≠ StatusError) ∨
       (svc.Status ≠ StatusError ∧ (env.Probe svc.Prober).2.1 = StatusError)
  · have hx' := hcond.mpr hx
    rw [if_pos hx'] at heq
    refine ⟨?_, ?_, ?_, w1, hcount, ?_, ?_⟩
    · rw [heq, hA.2.2.1, hcount]; simp [hx]
    · right; rw [heq, hA.2.2.1, hcount]
    · rw [heq, hA.1]; exact hg
    · rw [heq, hA.1]
    · rw [if_pos hx]; exact heq
  · have hx' : ¬ _ := fun h => hx (hcond.mp h)
    rw [if_neg hx'] at heq
    refine ⟨?_, ?_, ?_, w1, hcount, ?_, ?_⟩
    · rw [heq, hcount]; simp [hx]
    · left; rw [heq, hcount]
    · rw [heq]; exact hg
    · rw [heq]
    · rw [if_neg hx]; exact heq

/-- The service `web/a` of `handManager` goes from `OK` to `ERROR`: one invocation of
`AlertAll`, which reaches both alerters. -/
theorem probeService_alerts_iff_witness :
    (World.start handManager).panicked = false ∧
    ((probeService scriptEnv (World.start handManager) "web" ⟨"web", 0⟩).alertAlls =
        (World.start handManager).alertAlls + 1 ↔
      (("OK" : Status) = StatusError ∧ ("ERROR" : Status) ≠ StatusError) ∨
      (("OK" : Status) ≠ StatusError ∧ ("ERROR" : Status) = StatusError)) ∧
    (probeService scriptEnv (World.start handManager) "web" ⟨"web", 0⟩).calls =
      [⟨"mail", "ERROR", "web", "a", "down", "host-a", "1000"⟩,
       ⟨"chat", "ERROR", "web", "a", "down", "host-a", "1000"⟩] :=
  ⟨rfl,
   (probeService_alerts_iff scriptEnv (World.start handManager) "web" ⟨"web", 0⟩
      ⟨[("ERROR", "down")], "a", "OK", "1 ms", "host-a"⟩ rfl (by decide)).1,
   by decide⟩

/-! ## `AlertAll` -/

theorem alertLoop_all {P A : Type} (category : String) (service : Ref) (date : String)
    (svc : Service P) (alerters : List A) (w : World P A)
    (hsvc : getService w.m.Services service = some svc) :
    alertLoop category service date (alerters.map some) w =
      { w with calls := w.calls ++ alerters.map (fun a =>
          { alerter := a, status := svc.Status, category := category, name := svc.Name,
            message := svc.Message, target := svc.Target, date := date }) } := by
  induction alerters generalizing w with
  | nil => simp [alertLoop]
  | cons a rest ih =>
    simp only [List.map_cons, alertLoop, hsvc]
    have h := ih { w with calls := w.calls ++
      [{ alerter := a, status := svc.Status, category := category, name := svc.Name,
         message := svc.Message, target := svc.Target, date := date }] } hsvc
    rw [h]
    simp

/-- With no nil entry in `Alerts` and a service behind the pointer, `AlertAll` does not
panic. -/
theorem AlertAll_panicked {P A : Type} (env : Env P A) (w : World P A) (category : String)
    (service : Ref) (svc : Service P) (alerters : List A)
    (hsvc : getService w.m.Services service = some svc)
    (hnil : w.m.Alerts = alerters.map some) :
    (AlertAll env w category service).panicked = w.panicked := by
  have h := alertLoop_all category service (env.Format (env.Now w.clock)) svc alerters
    { w with clock := w.clock + 1, alertAlls := w.alertAlls + 1 } hsvc
  unfold AlertAll
  simp only [hnil]
  rw [h]

/-- One call of `AlertAll`, run with no step of another goroutine in between, on a
manager whose `Alerts` list has no nil entry (it is `alerters.map some`): `Alert` is
invoked once on every entry, in list order, each time with the service's status, the
category, the service's name, message and target, and one timestamp, the formatted
clock reading taken before the first call.  The manager, with the service records it
holds, is unchanged; no panic is raised; one clock reading is consumed. -/
theorem AlertAll_broadcast {P A : Type} (env : Env P A) (w : World P A) (category : String)
    (service : Ref) (svc : Service P) (alerters : List A)
    (hsvc : getService w.m.Services service = some svc)
    (hnil : w.m.Alerts = alerters.map some) :
    (AlertAll env w category service).calls =
      w.calls ++ alerters.map (fun a =>
        { alerter := a, status := svc.Status, category := category, name := svc.Name,
          message := svc.Message, target := svc.Target,
          date := env.Format (env.Now w.clock) }) ∧
    (AlertAll env w category service).m = w.m ∧
    getService (AlertAll env w category service).m.Services service = some svc ∧
    (AlertAll env w category service).panicked = w.panicked ∧
    (AlertAll env w category service).clock = w.clock + 1 := by
  have h := alertLoop_all category service (env.Format (env.Now w.clock)) svc alerters
    { w with clock := w.clock + 1, alertAlls := w.alertAlls + 1 } hsvc
  unfold AlertAll
  simp only [hnil]
  rw [h]
  exact ⟨rfl, rfl, hsvc, rfl, rfl⟩

/-- On `handManager` both alerters are invoked, `mail` first, with the same six
arguments. -/
theorem AlertAll_broadcast_witness :
    getService (World.start handManager).m.Services ⟨"web", 0⟩ =
      some ⟨[("ERROR", "down")], "a", "OK", "1 ms", "host-a"⟩ ∧
    (World.start handManager).m.Alerts = ["mail", "chat"].map some ∧
    (AlertAll scriptEnv (World.start handManager) "web" ⟨"web", 0⟩).calls =
      [⟨"mail", "OK", "web", "a", "1 ms", "host-a", "1000"⟩,
       ⟨"chat", "OK", "web", "a", "1 ms", "host-a", "1000"⟩] :=
  ⟨by decide, rfl,
   (AlertAll_broadcast scriptEnv (World.start handManager) "web" ⟨"web", 0⟩
      ⟨[("ERROR", "down")], "a", "OK", "1 ms", "host-a"⟩ ["mail", "chat"]
      (by decide) rfl).1⟩

/-- C3 (the code does otherwise).  The manager `NewManager` builds for one alert
declaration has the `Alerts` list `[nil, mail]`.  `AlertAll` on it, for its service
`web/a`, panics at the first entry: no `Alert` is invoked, and the `mail` alerter, the one
registered alerter, is never reached. -/
theorem AlertAll_nil_entry_panics :
    ∃ m : Manager Script String,
      (NewManager scriptEnv oneAlertConfig { id := 1 }).manager = some m ∧
      m.Alerts = [none, some "mail to 0"] ∧
      (AlertAll scriptEnv (World.start m) "web" ⟨"web", 0⟩).calls = [] ∧
      (AlertAll scriptEnv (World.start m) "web" ⟨"web", 0⟩).panicked = true :=
  ⟨_, rfl, by decide, by decide, by decide⟩

end manager

namespace manager

open probe

/-! ## `NewManager`: the two loops -/

theorem probesLoop_cons_ok {P A : Type} (env : Env P A) (c : ProbeConfig)
    (rest : List ProbeConfig) (services : ServiceMap P) (h : probeDeclError env c = none) :
    ∃ prober : P,
      probesLoop env (c :: rest) services =
        ((probesLoop env rest (mapSet services c.Category (servicesAt services c.Category ++
            [{ Prober := prober, Name := c.Name, Status := "", Message := "",
               Target := (env.SetProbeConfigDefaults c.Config).Target }]))).1,
         probeDeclEvents env c ++
          (probesLoop env rest (mapSet services c.Category (servicesAt services c.Category ++
            [{ Prober := prober, Name := c.Name, Status := "", Message := "",
               Target := (env.SetProbeConfigDefaults c.Config).Target }]))).2) := by
  unfold probeDeclError at h
  cases hc : env.ProbeConstructors c.Type_ with
  | none => simp [hc] at h
  | some ctor =>
    simp only [hc] at h
    refine ⟨(env.Init (ctor ()) (env.SetProbeConfigDefaults c.Config)).1, ?_⟩
    simp only [probesLoop, hc, h, probeDeclEvents]

theorem probesLoop_cons_error {P A : Type} (env : Env P A) (c : ProbeConfig)
    (rest : List ProbeConfig) (services : ServiceMap P) (e : Error)
    (h : probeDeclError env c = some e) :
    (probesLoop env (c :: rest) services).1 = .error e ∧
    ((probesLoop env (c :: rest) services).2 = [.resolveProbe c.Type_] ∨
     (probesLoop env (c :: rest) services).2 = probeDeclEvents env c) ∧
    (env.ProbeConstructors c.Type_ ≠ none →
      (probesLoop env (c :: rest) services).2 = probeDeclEvents env c) := by
  unfold probeDeclError at h
  cases hc : env.ProbeConstructors c.Type_ with
  | none =>
    simp only [hc, Option.some.injEq] at h
    simp [probesLoop, hc, h]
  | some ctor =>
    simp only [hc] at h
    simp [probesLoop, hc, h, probeDeclEvents]

/-- The first loop passes every declaration that raises no error and stops at the
first one that does. -/
theorem probesLoop_append_error {P A : Type} (env : Env P A) (pre : List ProbeConfig)
    (d : ProbeConfig) (post : List ProbeConfig) (services : ServiceMap P) (e : Error)
    (hpre : ∀ x ∈ pre, probeDeclError env x = none) (hd : probeDeclError env d = some e) :
    (probesLoop env (pre ++ d :: post) services).1 = .error e ∧
    (env.ProbeConstructors d.Type_ ≠ none →
      (probesLoop env (pre ++ d :: post) services).2 =
        pre.flatMap (probeDeclEvents env) ++ probeDeclEvents env d) := by
  induction pre generalizing services with
  | nil =>
    have h := probesLoop_cons_error env d post services e hd
    simpa using ⟨h.1, h.2.2⟩
  | cons c pre ih =>
    obtain ⟨prober, hp⟩ := probesLoop_cons_ok env c (pre ++ d :: post) services
      (hpre c (List.mem_cons_self _ _))
    have hrest := ih (mapSet services c.Category (servicesAt services c.Category ++
            [{ Prober := prober, Name := c.Name, Status := "", Message := "",
               Target := (env.SetProbeConfigDefaults c.Config).Target }]))
      (fun x hx => hpre x (List.mem_cons_of_mem _ hx))
    rw [List.cons_append, hp]
    refine ⟨hrest.1, fun hreg => ?_⟩
    simp only [List.flatMap_cons, List.append_assoc]
    rw [hrest.2 hreg]

/-- When the first loop finishes, no declaration raised an error, and the calls made
are the three calls of each declaration, in order. -/
theorem probesLoop_ok {P A : Type} (env : Env P A) (ds : List ProbeConfig)
    (services m : ServiceMap P) (h : (probesLoop env ds services).1 = .ok m) :
    (∀ d ∈ ds, probeDeclError env d = none) ∧
    (probesLoop env ds services).2 = ds.flatMap (probeDeclEvents env) := by
  induction ds generalizing services with
  | nil => simp [probesLoop]
  | cons c rest ih =>
    cases hc : probeDeclError env c with
    | some e =>
      have := (probesLoop_cons_error env c rest services e hc).1
      rw [this] at h
      cases h
    | none =>
      obtain ⟨prober, hp⟩ := probesLoop_cons_ok env c rest services hc
      rw [hp] at h ⊢
      have hrest := ih _ h
      refine ⟨?_, ?_⟩
      · intro d hd
        rcases List.mem_cons.mp hd with rfl | hd
        · exact hc
        · exact hrest.1 d hd
      · simp only [List.flatMap_cons]
        rw [hrest.2]

theorem probesLoop_total {P A : Type} (env : Env P A) (ds : List ProbeConfig)
    (services : ServiceMap P) (h : ∀ d ∈ ds, probeDeclError env d = none) :
    ∃ m, (probesLoop env ds services).1 = .ok m := by
  induction ds generalizing services with
  | nil => exact ⟨services, rfl⟩
  | cons c rest ih =>
    obtain ⟨prober, hp⟩ := probesLoop_cons_ok env c rest services
      (h c (List.mem_cons_self _ _))
    rw [hp]
    exact ih _ (fun d hd => h d (List.mem_cons_of_mem _ hd))

end manager

namespace manager

open probe

theorem alertsLoop_ok {P A : Type} (env : Env P A) (cs : List AlertConfig)
    (acc alerts : List (Option A)) (h : (alertsLoop env cs acc).1 = .ok alerts) :
    alerts = acc ++ cs.map (builtAlerter env) ∧
    (∀ c ∈ cs, env.AlertConstructors c.Type_ ≠ none) ∧
    (alertsLoop env cs acc).2 = cs.flatMap alertDeclEvents := by
  induction cs generalizing acc with
  | nil =>
    simp only [alertsLoop, Except.ok.injEq] at h
    simp [alertsLoop, h]
  | cons c rest ih =>
    cases hc : env.AlertConstructors c.Type_ with
    | none => simp [alertsLoop, hc] at h
    | some ctor =>
      simp only [alertsLoop, hc] at h ⊢
      have hrest := ih _ h
      refine ⟨?_, ?_, ?_⟩
      · rw [hrest.1]; simp [builtAlerter, hc]
      · intro x hx
        rcases List.mem_cons.mp hx with rfl | hx
        · simp [hc]
        · exact hrest.2.1 x hx
      · rw [hrest.2.2]; simp [alertDeclEvents]

theorem alertsLoop_append_error {P A : Type} (env : Env P A) (pre : List AlertConfig)
    (a : AlertConfig) (post : List AlertConfig) (acc : List (Option A))
    (hpre : ∀ x ∈ pre, env.AlertConstructors x.Type_ ≠ none)
    (ha : env.AlertConstructors a.Type_ = none) :
    (alertsLoop env (pre ++ a :: post) acc).1 = .error ("unknown alert type: " ++ a.Type_) := by
  induction pre generalizing acc with
  | nil => simp [alertsLoop, ha]
  | cons c pre ih =>
    cases hc : env.AlertConstructors c.Type_ with
    | none => exact absurd hc (hpre c (List.mem_cons_self _ _))
    | some ctor =>
      simp only [List.cons_append, alertsLoop, hc]
      exact ih _ (fun x hx => hpre x (List.mem_cons_of_mem _ hx))

theorem probeDeclError_eq_none_iff {P A : Type} (env : Env P A) (c : ProbeConfig) :
    probeDeclError env c = none ↔
      ∃ probeConstructor, env.ProbeConstructors c.Type_ = some probeConstructor ∧
        (env.Init (probeConstructor ()) (env.SetProbeConfigDefaults c.Config)).2 = none := by
  unfold probeDeclError
  cases hc : env.ProbeConstructors c.Type_ with
  | none => simp
  | some ctor => simp

/-! ## `NewManager`: what it returns -/

/-- The manager `NewManager` returns, when it returns one. -/
theorem NewManager_ok {P A : Type} (env : Env P A) (cfg : Config) (log : Logger)
    (m : Manager P A) (h : (NewManager env cfg log).manager = some m) :
    (NewManager env cfg log).err = none ∧
    (probesLoop env cfg.Probes []).1 = .ok m.Services ∧
    (alertsLoop env cfg.Alerts (List.replicate cfg.Alerts.length none)).1 = .ok m.Alerts ∧
    m.logger = log ∧ m.LastUpdate = zeroTime := by
  unfold NewManager at h ⊢
  rcases hp : probesLoop env cfg.Probes [] with ⟨rp, tp⟩
  cases rp with
  | error e => simp [hp] at h
  | ok services =>
    rcases ha : alertsLoop env cfg.Alerts (List.replicate cfg.Alerts.length none) with ⟨ra, ta⟩
    cases ra with
    | error e => simp [hp, ha] at h
    | ok alerts =>
      simp only [hp, ha, Option.some.injEq] at h
      subst h
      simp [hp, ha]

/-- The two outcomes of `NewManager`: a manager and no error, or an error and no
manager. -/
theorem NewManager_either {P A : Type} (env : Env P A) (cfg : Config) (log : Logger) :
    (∃ m, (NewManager env cfg log).manager = some m ∧ (NewManager env cfg log).err = none) ∨
    ((NewManager env cfg log).manager = none ∧ ∃ e, (NewManager env cfg log).err = some e) := by
  unfold NewManager
  rcases hp : probesLoop env cfg.Probes [] with ⟨rp, tp⟩
  cases rp with
  | error e => right; exact ⟨rfl, e, rfl⟩
  | ok services =>
    rcases ha : alertsLoop env cfg.Alerts (List.replicate cfg.Alerts.length none) with ⟨ra, ta⟩
    cases ra with
    | error e => right; exact ⟨rfl, e, rfl⟩
    | ok alerts => left; exact ⟨_, rfl, rfl⟩

theorem NewManager_probe_error {P A : Type} (env : Env P A) (cfg : Config) (log : Logger)
    (e : Error) (h : (probesLoop env cfg.Probes []).1 = .error e) :
    (NewManager env cfg log).manager = none ∧ (NewManager env cfg log).err = some e ∧
    (NewManager env cfg log).trace = (probesLoop env cfg.Probes []).2 := by
  unfold NewManager
  rcases hp : probesLoop env cfg.Probes [] with ⟨rp, tp⟩
  rw [hp] at h
  simp only at h
  subst h
  exact ⟨rfl, rfl, rfl⟩

theorem NewManager_alert_error {P A : Type} (env : Env P A) (cfg : Config) (log : Logger)
    (e : Error) (hp : ∀ d ∈ cfg.Probes, probeDeclError env d = none)
    (h : (alertsLoop env cfg.Alerts (List.replicate cfg.Alerts.length none)).1 = .error e) :
    (NewManager env cfg log).manager = none ∧ (NewManager env cfg log).err = some e := by
  obtain ⟨services, hs⟩ := probesLoop_total env cfg.Probes [] hp
  unfold NewManager
  rcases hp' : probesLoop env cfg.Probes [] with ⟨rp, tp⟩
  rw [hp'] at hs
  simp only at hs
  subst hs
  rcases ha : alertsLoop env cfg.Alerts (List.replicate cfg.Alerts.length none) with ⟨ra, ta⟩
  rw [ha] at h
  simp only at h
  subst h
  exact ⟨rfl, rfl⟩

end manager

namespace manager

open probe

/-- The `Alerts` list of every manager `NewManager` returns: as many nil entries as
there are alert declarations, followed by the constructed alerters in declaration
order.  Its length is twice the number of declarations. -/
theorem NewManager_alerts {P A : Type} (env : Env P A) (cfg : Config) (log : Logger)
    (m : Manager P A) (h : (NewManager env cfg log).manager = some m) :
    m.Alerts = List.replicate cfg.Alerts.length none ++ cfg.Alerts.map (builtAlerter env) ∧
    m.Alerts.length = 2 * cfg.Alerts.length ∧
    (∀ c ∈ cfg.Alerts, builtAlerter env c ≠ none) := by
  have ha := alertsLoop_ok env cfg.Alerts _ _ (NewManager_ok env cfg log m h).2.2.1
  refine ⟨ha.1, ?_, ?_⟩
  · rw [ha.1]; simp; omega
  · intro c hc
    have := ha.2.1 c hc
    unfold builtAlerter
    cases hx : env.AlertConstructors c.Type_ with
    | none => exact absurd hx this
    | some ctor => simp

theorem NewManager_alerts_witness :
    ∃ m : Manager Script String,
      (NewManager scriptEnv oneAlertConfig { id := 1 }).manager = some m ∧
      m.Alerts.length = 2 * oneAlertConfig.Alerts.length :=
  ⟨_, rfl, (NewManager_alerts scriptEnv oneAlertConfig { id := 1 } _ rfl).2.1⟩

/-- C4 (the code does otherwise).  For the configuration with the single alert
declaration `mail`, which `NewManager` accepts, the returned `Alerts` list is
`[nil, mail]`: two entries for one declaration, the first of them nil. -/
theorem NewManager_alerts_nil_slots :
    ∃ m : Manager Script String,
      (NewManager scriptEnv oneAlertConfig { id := 1 }).manager = some m ∧
      (NewManager scriptEnv oneAlertConfig { id := 1 }).err = none ∧
      oneAlertConfig.Alerts.length = 1 ∧
      m.Alerts = [none, some "mail to 0"] ∧
      m.Alerts.length = 2 :=
  ⟨_, rfl, by decide, by decide, by decide, by decide⟩

/-! ### C7: the services -/

theorem probesLoop_services {P A : Type} (env : Env P A) (ds : List ProbeConfig)
    (acc m : ServiceMap P) (h : (probesLoop env ds acc).1 = .ok m) (category : String) :
    (servicesAt m category).map (fun s => (s.Name, s.Target, s.Status, s.Message)) =
      (servicesAt acc category).map (fun s => (s.Name, s.Target, s.Status, s.Message)) ++
      (ds.filter (fun d => d.Category = category)).map
        (fun d => (d.Name, (env.SetProbeConfigDefaults d.Config).Target, StatusUnknown, "")) ∧
    (mapGet m category ≠ none ↔
      mapGet acc category ≠ none ∨ ∃ d ∈ ds, d.Category = category) := by
  induction ds generalizing acc with
  | nil =>
    simp only [probesLoop, Except.ok.injEq] at h
    subst h
    simp
  | cons c rest ih =>
    cases hc : probeDeclError env c with
    | some e =>
      have := (probesLoop_cons_error env c rest acc e hc).1
      rw [this] at h
      cases h
    | none =>
      obtain ⟨prober, hp⟩ := probesLoop_cons_ok env c rest acc hc
      rw [hp] at h
      have hrest := ih _ h
      rw [servicesAt_mapSet, mapGet_mapSet] at hrest
      by_cases hcat : c.Category = category
      · subst hcat
        simp only [if_true] at hrest
        refine ⟨?_, ?_⟩
        · rw [hrest.1]
          simp [StatusUnknown]
        · rw [hrest.2]
          simp
      · simp only [hcat, if_false] at hrest
        refine ⟨?_, ?_⟩
        · rw [hrest.1]
          simp [hcat]
        · rw [hrest.2]
          simp [hcat]

/-- C7.  For every manager `NewManager` returns and every category name, the service
list of that category holds one service per probe declaration of that category, in
configuration order, with the declaration's name, the target of its configuration
after `SetProbeConfigDefaults`, the status `Unknown` and the empty message; and the
category is a key of the map if and only if some probe declaration names it. -/
theorem NewManager_services {P A : Type} (env : Env P A) (cfg : Config) (log : Logger)
    (m : Manager P A) (h : (NewManager env cfg log).manager = some m) (category : String) :
    (servicesAt m.Services category).map (fun s => (s.Name, s.Target, s.Status, s.Message)) =
      (cfg.Probes.filter (fun d => d.Category = category)).map
        (fun d => (d.Name, (env.SetProbeConfigDefaults d.Config).Target, StatusUnknown, "")) ∧
    (mapGet m.Services category ≠ none ↔ ∃ d ∈ cfg.Probes, d.Category = category) := by
  have hs := probesLoop_services env cfg.Probes [] m.Services
    (NewManager_ok env cfg log m h).2.1 category
  simpa [servicesAt, mapGet] using hs

/-- Declared in the order `web/a`, `db/c`, `web/b`: the category `web` holds `a` then
`b`, and `mail` is not a category. -/
theorem NewManager_services_witness :
    ∃ m : Manager Script String,
      (NewManager scriptEnv twoCategories { id := 1 }).manager = some m ∧
      (servicesAt m.Services "web").map (fun s => (s.Name, s.Target, s.Status, s.Message)) =
        [("a", "host-a", "", ""), ("b", "host-b", "", "")] ∧
      mapGet m.Services "mail" = none ∧
      ((servicesAt m.Services "db").map (fun s => (s.Name, s.Target, s.Status, s.Message)) =
        (twoCategories.Probes.filter (fun d => d.Category = "db")).map
          (fun d => (d.Name, (scriptEnv.SetProbeConfigDefaults d.Config).Target,
            StatusUnknown, ""))) :=
  ⟨_, rfl, by decide, by decide,
   (NewManager_services scriptEnv twoCategories { id := 1 } _ rfl "db").1⟩

end manager

namespace manager

open probe

/-! ### C6: fail-fast -/

/-- C6.  `NewManager` returns either a manager and no error, or an error and no
manager.  When the `Init` of a declaration returns an error and every earlier probe
declaration was constructed and initialised without error, `NewManager` returns no
manager and exactly that error, and the collaborator calls it has made are the three
calls (lookup, construction, `Init`) of each declaration up to and including the failing
one: nothing is done for a later probe declaration and no alert type is looked up. -/
theorem NewManager_fail_fast {P A : Type} (env : Env P A) (cfg : Config) (log : Logger) :
    ((∃ m, (NewManager env cfg log).manager = some m ∧ (NewManager env cfg log).err = none) ∨
     ((NewManager env cfg log).manager = none ∧
        ∃ e, (NewManager env cfg log).err = some e)) ∧
    ∀ (pre : List ProbeConfig) (d : ProbeConfig) (post : List ProbeConfig)
      (probeConstructor : Unit → P) (e : Error),
      cfg.Probes = pre ++ d :: post →
      (∀ x ∈ pre, probeDeclError env x = none) →
      env.ProbeConstructors d.Type_ = some probeConstructor →
      (env.Init (probeConstructor ()) (env.SetProbeConfigDefaults d.Config)).2 = some e →
      (NewManager env cfg log).manager = none ∧
      (NewManager env cfg log).err = some e ∧
      (NewManager env cfg log).trace =
        pre.flatMap (probeDeclEvents env) ++ probeDeclEvents env d := by
  refine ⟨NewManager_either env cfg log, ?_⟩
  intro pre d post ctor e hcfg hpre hreg hinit
  have hd : probeDeclError env d = some e := by
    unfold probeDeclError
    simp only [hreg, hinit]
  have hl := probesLoop_append_error env pre d post [] e hpre hd
  rw [← hcfg] at hl
  have hn := NewManager_probe_error env cfg log e hl.1
  refine ⟨hn.1, hn.2.1, ?_⟩
  rw [hn.2.2]
  exact hl.2 (by simp [hreg])

/-- In `failingInitConfig` the second declaration fails to initialise: the error is
its error, and the calls made are those of the first two declarations only. -/
theorem NewManager_fail_fast_witness :
    (NewManager scriptEnv failingInitConfig { id := 1 }).manager = none ∧
    (NewManager scriptEnv failingInitConfig { id := 1 }).err = some "missing target" ∧
    (NewManager scriptEnv failingInitConfig { id := 1 }).trace =
      [fiveRounds].flatMap (probeDeclEvents scriptEnv) ++
        probeDeclEvents scriptEnv (scriptProbe "web" "b" "" []) :=
  (NewManager_fail_fast scriptEnv failingInitConfig { id := 1 }).2
    [fiveRounds] (scriptProbe "web" "b" "" []) [scriptProbe "db" "c" "host-c" []]
    (fun _ => []) "missing target" rfl (by decide) rfl rfl

/-! ### C5: unknown types -/

/-- C5, amended.  A configuration with a probe declaration or an alert declaration of
an unregistered type is refused: `NewManager` returns an error and no manager.  The
error is `"unknown probe type: "` followed by the type of a probe declaration when that
type is unregistered and every earlier probe declaration is constructed and
initialised without error.  It is `"unknown alert type: "` followed by the type of an
alert declaration when that type is unregistered, every probe declaration is
constructed and initialised without error, and every earlier alert declaration has a
registered type. -/
theorem NewManager_unknown_type {P A : Type} (env : Env P A) (cfg : Config) (log : Logger) :
    (((∃ d ∈ cfg.Probes, env.ProbeConstructors d.Type_ = none) ∨
      (∃ a ∈ cfg.Alerts, env.AlertConstructors a.Type_ = none)) →
      (NewManager env cfg log).manager = none ∧
        ∃ e, (NewManager env cfg log).err = some e) ∧
    (∀ (pre : List ProbeConfig) (d : ProbeConfig) (post : List ProbeConfig),
      cfg.Probes = pre ++ d :: post →
      (∀ x ∈ pre, probeDeclError env x = none) →
      env.ProbeConstructors d.Type_ = none →
      (NewManager env cfg log).manager = none ∧
      (NewManager env cfg log).err = some ("unknown probe type: " ++ d.Type_)) ∧
    (∀ (pre : List AlertConfig) (a : AlertConfig) (post : List AlertConfig),
      cfg.Alerts = pre ++ a :: post →
      (∀ x ∈ cfg.Probes, probeDeclError env x = none) →
      (∀ x ∈ pre, (env.AlertConstructors x.Type_).isSome) →
      env.AlertConstructors a.Type_ = none →
      (NewManager env cfg log).manager = none ∧
      (NewManager env cfg log).err = some ("unknown alert type: " ++ a.Type_)) := by
  refine ⟨?_, ?_, ?_⟩
  · intro h
    rcases NewManager_either env cfg log with ⟨m, hm, -⟩ | hfail
    · exfalso
      have hok := NewManager_ok env cfg log m hm
      rcases h with ⟨d, hd, hnone⟩ | ⟨a, ha, hnone⟩
      · have := (probesLoop_ok env cfg.Probes [] _ hok.2.1).1 d hd
        simp [probeDeclError, hnone] at this
      · exact (alertsLoop_ok env cfg.Alerts _ _ hok.2.2.1).2.1 a ha hnone
    · exact hfail
  · intro pre d post hcfg hpre hnone
    have hd : probeDeclError env d = some ("unknown probe type: " ++ d.Type_) := by
      simp [probeDeclError, hnone]
    have hl := probesLoop_append_error env pre d post [] _ hpre hd
    rw [← hcfg] at hl
    have hn := NewManager_probe_error env cfg log _ hl.1
    exact ⟨hn.1, hn.2.1⟩
  · intro pre a post hcfg hprobes hpre hnone
    have hl := alertsLoop_append_error env pre a post
      (List.replicate cfg.Alerts.length none)
      (fun x hx hx' => by have := hpre x hx; simp [hx'] at this) hnone
    rw [← hcfg] at hl
    exact NewManager_alert_error env cfg log _ hprobes hl

/-- The unregistered probe type `"ping"` after a good declaration, and the unregistered
alert type `"pager"` after good declarations. -/
theorem NewManager_unknown_type_witness :
    (NewManager scriptEnv unknownProbeConfig { id := 1 }).err =
      some ("unknown probe type: " ++ "ping") ∧
    (NewManager scriptEnv unknownAlertConfig { id := 1 }).err =
      some ("unknown alert type: " ++ "pager") ∧
    (NewManager scriptEnv unknownAlertConfig { id := 1 }).manager = none :=
  ⟨((NewManager_unknown_type scriptEnv unknownProbeConfig { id := 1 }).2.1
      [fiveRounds] _ [threeRounds] rfl (by decide) rfl).2,
   ((NewManager_unknown_type scriptEnv unknownAlertConfig { id := 1 }).2.2
      [{ Type_ := "mail", Options := [] }] { Type_ := "pager", Options := [] } [] rfl
      (by decide) (by decide) rfl).2,
   ((NewManager_unknown_type scriptEnv unknownAlertConfig { id := 1 }).1
      (Or.inr ⟨{ Type_ := "pager", Options := [] }, by decide, rfl⟩)).1⟩

/-- C5 as stated fails.  `unknownAfterFailingInit` contains a probe declaration of the
unregistered type `"ping"`, yet `NewManager` fails with the `Init` error of the
declaration before it, not with `"unknown probe type: ping"`.  And in
`unknownProbeConfig`, which contains an alert declaration of the unregistered type
`"pager"`, the error is the one of the probe declaration. -/
theorem NewManager_unknown_type_counterexample :
    (∃ d ∈ unknownAfterFailingInit.Probes,
      d.Type_ = "ping" ∧ scriptEnv.ProbeConstructors d.Type_ = none) ∧
    (NewManager scriptEnv unknownAfterFailingInit { id := 1 }).err = some "missing target" ∧
    (NewManager scriptEnv unknownAfterFailingInit { id := 1 }).err ≠
      some "unknown probe type: ping" ∧
    (∃ a ∈ unknownProbeConfig.Alerts,
      a.Type_ = "pager" ∧ scriptEnv.AlertConstructors a.Type_ = none) ∧
    (NewManager scriptEnv unknownProbeConfig { id := 1 }).err ≠
      some "unknown alert type: pager" := by
  refine ⟨⟨_, List.mem_cons_of_mem _ (List.mem_cons_self _ _), rfl, rfl⟩, by decide,
    by decide, ⟨_, List.mem_cons_self _ _, rfl, rfl⟩, by decide⟩

end manager

namespace manager

open probe

/-! ## Successive probes of one service -/

/-- A completed probe in a live process whose `Alerts` list has no nil entry: the
process stays live, the list is unchanged, the service holds the result, and the count
of `AlertAll` invocations grows by one exactly on a crossing of the `ERROR` boundary. -/
theorem probeService_live {P A : Type} (env : Env P A) (w : World P A) (category : String)
    (r : Ref) (svc : Service P) (alerters : List A) (hlive : w.panicked = false)
    (hsvc : getService w.m.Services r = some svc) (hnil : w.m.Alerts = alerters.map some) :
    (probeService env w category r).panicked = false ∧
    (probeService env w category r).m.Alerts = alerters.map some ∧
    getService (probeService env w category r).m.Services r =
      some { svc with Prober := (env.Probe svc.Prober).1,
                      Status := (env.Probe svc.Prober).2.1,
                      Message := (env.Probe svc.Prober).2.2 } ∧
    (w.alertAlls < (probeService env w category r).alertAlls ↔
      (svc.Status = StatusError ∧ (env.Probe svc.Prober).2.1 ≠ StatusError) ∨
      (svc.Status ≠ StatusError ∧ (env.Probe svc.Prober).2.1 = StatusError)) := by
  obtain ⟨w1, hg, -, ha, -, -, hcount, -, -, hl1, heq⟩ :=
    probeService_eq env w category r svc hlive hsvc
  have hA := AlertAll_frame env w1 category r
  have hpan := AlertAll_panicked env w1 category r _ alerters hg (ha.trans hnil)
  have hcond := crossing_iff svc.Status (env.Probe svc.Prober).2.1
  rw [heq]
  by_cases hx : svc.Status ≠ (env.Probe svc.Prober).2.1 ∧
      ((env.Probe svc.Prober).2.1 = StatusError ∨ svc.Status = StatusError)
  · rw [if_pos hx]
    refine ⟨hpan.trans hl1, ?_, ?_, ?_⟩
    · rw [hA.1]; exact ha.trans hnil
    · rw [hA.1]; exact hg
    · rw [hA.2.2.1, hcount]
      exact ⟨fun _ => hcond.mp hx, fun _ => Nat.lt_succ_self _⟩
  · rw [if_neg hx]
    refine ⟨hl1, ha.trans hnil, hg, ?_⟩
    rw [hcount]
    exact ⟨fun h => absurd h (Nat.lt_irrefl _), fun h => absurd (hcond.mpr h) hx⟩

/-- For a service probed round after round in a live process whose `Alerts` list has
no nil entry, `AlertAll` is invoked at exactly the rounds at which the status crosses the
`ERROR` boundary. -/
theorem alertRounds_eq_crossings {P A : Type} (env : Env P A) (category : String) (r : Ref)
    (alerters : List A) (n : Nat) (k : Nat) (w : World P A) (svc : Service P)
    (hlive : w.panicked = false) (hsvc : getService w.m.Services r = some svc)
    (hnil : w.m.Alerts = alerters.map some) :
    alertRounds k w (probeRounds env category r n w) =
      crossings k svc.Status (probeStatuses env svc.Prober n) := by
  induction n generalizing k w svc with
  | zero => rfl
  | succ n ih =>
    have h := probeService_live env w category r svc alerters hlive hsvc hnil
    have hrec := ih (k + 1) (probeService env w category r) _ h.1 h.2.2.1 h.2.1
    simp only [probeRounds, alertRounds, probeStatuses, crossings]
    rw [hrec]
    by_cases hx : (svc.Status = StatusError ∧ (env.Probe svc.Prober).2.1 ≠ StatusError) ∨
        (svc.Status ≠ StatusError ∧ (env.Probe svc.Prober).2.1 = StatusError)
    · rw [if_pos (h.2.2.2.mpr hx), if_pos hx]
    · rw [if_neg (fun hlt => hx (h.2.2.2.mp hlt)), if_neg hx]

/-- A manager built by `NewManager` from a configuration with no alert declaration:
the statuses `OK, OK, ERROR, ERROR, OK` invoke `AlertAll` at rounds 3 and 5.  And the
statuses `OK, WARNING, OK`, starting from `Unknown`, invoke it at no round. -/
theorem alertRounds_eq_crossings_witness :
    (∃ m : Manager Script String,
      (NewManager scriptEnv noAlertConfig { id := 1 }).manager = some m ∧
      alertRounds 1 (World.start m)
        (probeRounds scriptEnv "web" ⟨"web", 0⟩ 5 (World.start m)) = [3, 5]) ∧
    (∃ m : Manager Script String,
      (NewManager scriptEnv threeRoundsConfig { id := 1 }).manager = some m ∧
      alertRounds 1 (World.start m)
        (probeRounds scriptEnv "web" ⟨"web", 0⟩ 3 (World.start m)) = []) :=
  ⟨⟨_, rfl,
    (alertRounds_eq_crossings scriptEnv "web" ⟨"web", 0⟩ [] 5 1 _
      ⟨[("OK", "1 ms"), ("OK", "2 ms"), ("ERROR", "down"), ("ERROR", "down"), ("OK", "3 ms")],
        "a", "", "", "host-a"⟩ rfl (by decide) rfl).trans (by decide)⟩,
   ⟨_, rfl, by decide⟩⟩

/-- C2 (the code does otherwise).  The service of the manager `NewManager` builds from
one probe declaration and one alert declaration starts with the status `Unknown` and
reports `OK, OK, ERROR, ERROR, OK`.  `AlertAll` is invoked at round 3 and panics on the
nil first entry of `Alerts`; the process is dead from then on, so nothing is invoked at
round 5 and no alerter is ever called. -/
theorem probeRounds_five_rounds_one_alert :
    ∃ m : Manager Script String,
      (NewManager scriptEnv oneAlertConfig { id := 1 }).manager = some m ∧
      (getService m.Services ⟨"web", 0⟩).map (fun s => s.Status) = some StatusUnknown ∧
      probeStatuses scriptEnv
        [("OK", "1 ms"), ("OK", "2 ms"), ("ERROR", "down"), ("ERROR", "down"), ("OK", "3 ms")] 5 =
        ["OK", "OK", "ERROR", "ERROR", "OK"] ∧
      alertRounds 1 (World.start m)
        (probeRounds scriptEnv "web" ⟨"web", 0⟩ 5 (World.start m)) = [3] ∧
      (probeRounds scriptEnv "web" ⟨"web", 0⟩ 5 (World.start m)).map
        (fun w => (w.panicked, w.calls.length)) =
        [(false, 0), (false, 0), (true, 0), (true, 0), (true, 0)] :=
  ⟨_, rfl, by decide, by decide, by decide, by decide⟩

end manager

namespace manager

open probe

/-! ## `ProbeLoop`: `LastUpdate` -/

theorem World.write_LastUpdate {P A : Type} (w : World P A) (r : Ref)
    (f : Service P → Service P) : (w.write r f).m.LastUpdate = w.m.LastUpdate := by
  unfold World.write
  split <;> rfl

/-- No statement of a probe goroutine assigns `LastUpdate`. -/
theorem taskStep_LastUpdate {P A : Type} (env : Env P A) (w : World P A) (t : Task) :
    (taskStep env w t).1.m.LastUpdate = w.m.LastUpdate := by
  unfold taskStep
  split
  · rfl
  · split
    · split <;> rfl
    · split
      · rfl
      · simp only [World.write_LastUpdate]
    · exact World.write_LastUpdate _ _ _
    · exact World.write_LastUpdate _ _ _
    · split
      · rfl
      · split_ifs <;> first | rfl | exact congrArg Manager.LastUpdate (AlertAll_frame env w _ _).1
    · rfl

/-- What a step of a probe goroutine leaves alone: `LastUpdate`, where the loop
stands, and the record of the rounds. -/
theorem step_task_frame {P A : Type} (env : Env P A) (s : Sys P A) (i : Nat) :
    (step env s (.task i)).w.m.LastUpdate = s.w.m.LastUpdate ∧
    (step env s (.task i)).mainpc = s.mainpc ∧
    (step env s (.task i)).rounds = s.rounds ∧
    (step env s (.task i)).roundStart = s.roundStart := by
  unfold step
  split
  · exact ⟨rfl, rfl, rfl, rfl⟩
  · simp only
    split
    · exact ⟨rfl, rfl, rfl, rfl⟩
    · exact ⟨taskStep_LastUpdate env s.w _, rfl, rfl, rfl⟩

theorem step_main_eq {P A : Type} (env : Env P A) (s : Sys P A) :
    step env s .main = if s.w.panicked then s else mainStep env s := rfl

theorem mainStep_loopInv {P A : Type} (env : Env P A) (s : Sys P A) (h : loopInv s) :
    loopInv (mainStep env s) := by
  obtain ⟨w, pc, tasks, rounds, rs⟩ := s
  cases pc with
  | start =>
    simp only [loopInv] at h
    simp [loopInv, mainStep, startRound, h]
  | launching first todo =>
    cases first <;> cases todo <;> simp only [loopInv] at h <;>
      simp only [loopInv, mainStep, launch, if_true, if_false, Bool.false_eq_true] <;>
      first | exact h | exact ⟨by omega, fun _ => h.2⟩
  | markUpdate =>
    simp only [loopInv] at h
    simp [loopInv, mainStep, markUpdate, h]
  | tick =>
    simp only [loopInv] at h
    simp only [loopInv, mainStep, startRound]
    exact ⟨by omega, trivial⟩

theorem step_loopInv {P A : Type} (env : Env P A) (s : Sys P A) (c : Choice)
    (h : loopInv s) : loopInv (step env s c) := by
  cases c with
  | main =>
    rw [step_main_eq]
    split
    · exact h
    · exact mainStep_loopInv env s h
  | task i =>
    obtain ⟨h1, h2, h3, h4⟩ := step_task_frame env s i
    unfold loopInv at h ⊢
    rw [h1, h2, h3, h4]
    exact h

theorem run_append_singleton {P A : Type} (env : Env P A) (s : Sys P A)
    (sched : List Choice) (c : Choice) :
    run env s (sched ++ [c]) = step env (run env s sched) c := by
  simp [run, List.foldl_append]

theorem run_loopInv {P A : Type} (env : Env P A) (m : Manager P A) (sched : List Choice) :
    loopInv (run env (Sys.start m) sched) := by
  induction sched using List.reverseRecOn with
  | nil => simp [run, Sys.start, loopInv]
  | append_singleton sched c ih =>
    rw [run_append_singleton]
    exact step_loopInv env _ c ih

theorem mainStep_LastUpdate_ne {P A : Type} (env : Env P A) (s : Sys P A)
    (h : (mainStep env s).w.m.LastUpdate ≠ s.w.m.LastUpdate) :
    s.mainpc = .start ∨ s.mainpc = .tick ∨ s.mainpc = .markUpdate := by
  obtain ⟨w, pc, tasks, rounds, rs⟩ := s
  cases pc with
  | start => exact Or.inl rfl
  | launching first todo =>
    exfalso
    cases todo <;> exact h rfl
  | markUpdate => exact Or.inr (Or.inr rfl)
  | tick => exact Or.inr (Or.inl rfl)

theorem mainStep_rounds_ne {P A : Type} (env : Env P A) (s : Sys P A)
    (h : (mainStep env s).rounds ≠ s.rounds ∨ (mainStep env s).roundStart ≠ s.roundStart) :
    s.mainpc = .start ∨ s.mainpc = .tick := by
  obtain ⟨w, pc, tasks, rounds, rs⟩ := s
  cases pc with
  | start => exact Or.inl rfl
  | launching first todo =>
    exfalso
    cases todo <;> rcases h with h | h <;> exact h rfl
  | markUpdate =>
    exfalso
    rcases h with h | h <;> exact h rfl
  | tick => exact Or.inr rfl

/-- The writes of `LastUpdate` in every interleaving of `ProbeLoop` with the probe
goroutines, with `s` the state reached:

* once a round has started, `LastUpdate` equals the clock reading taken at the start of
  the most recently started round everywhere except while the loop waits for its first
  tick, after the statement `m.LastUpdate = time.Now()` that follows the first
  `probeAll`;
* a step changes `LastUpdate` only if it is a step of the loop that starts a round or
  that statement of `ProbeLoop`; no probe goroutine changes it;
* the record of the rounds changes only when the loop starts a round, and starting a
  round takes one clock reading, stores it in `LastUpdate`, and launches no goroutine;
* the statement of `ProbeLoop` stores the reading it takes then, and starts no round. -/
theorem ProbeLoop_LastUpdate {P A : Type} (env : Env P A) (m : Manager P A)
    (sched : List Choice) :
    let s := run env (Sys.start m) sched
    (1 ≤ s.rounds → ¬ (s.rounds = 1 ∧ s.mainpc = .tick) →
      s.w.m.LastUpdate = s.roundStart) ∧
    (∀ c, (step env s c).w.m.LastUpdate ≠ s.w.m.LastUpdate →
      c = .main ∧ (s.mainpc = .start ∨ s.mainpc = .tick ∨ s.mainpc = .markUpdate)) ∧
    (∀ c, (step env s c).rounds ≠ s.rounds ∨ (step env s c).roundStart ≠ s.roundStart →
      c = .main ∧ (s.mainpc = .start ∨ s.mainpc = .tick)) ∧
    (s.w.panicked = false → s.mainpc = .start ∨ s.mainpc = .tick →
      (step env s .main).rounds = s.rounds + 1 ∧
      (step env s .main).roundStart = env.Now s.w.clock ∧
      (step env s .main).w.m.LastUpdate = env.Now s.w.clock ∧
      (step env s .main).w.clock = s.w.clock + 1 ∧
      (step env s .main).tasks = s.tasks) ∧
    (s.w.panicked = false → s.mainpc = .markUpdate →
      (step env s .main).w.m.LastUpdate = env.Now s.w.clock ∧
      (step env s .main).rounds = s.rounds ∧
      (step env s .main).roundStart = s.roundStart ∧
      (step env s .main).mainpc = .tick) := by
  intro s
  have hinv : loopInv s := run_loopInv env m sched
  refine ⟨?_, ?_, ?_, ?_, ?_⟩
  · intro h1 hnot
    unfold loopInv at hinv
    rcases hpc : s.mainpc with _ | ⟨first, todo⟩ | _ | _
    · rw [hpc] at hinv; simp only at hinv; omega
    · rw [hpc] at hinv
      cases first <;> exact hinv.2
    · rw [hpc] at hinv; exact hinv.2
    · rw [hpc] at hinv
      simp only at hinv
      apply hinv.2
      by_contra hlt
      exact hnot ⟨by omega, hpc⟩
  · intro c hne
    cases c with
    | main =>
      refine ⟨rfl, ?_⟩
      rw [step_main_eq] at hne
      split at hne
      · exact absurd rfl hne
      · exact mainStep_LastUpdate_ne env s hne
    | task i => exact absurd (step_task_frame env s i).1 hne
  · intro c hne
    cases c with
    | main =>
      refine ⟨rfl, ?_⟩
      rw [step_main_eq] at hne
      split at hne
      · rcases hne with h | h <;> exact absurd rfl h
      · exact mainStep_rounds_ne env s hne
    | task i =>
      have hf := step_task_frame env s i
      rcases hne with h | h
      · exact absurd hf.2.2.1 h
      · exact absurd hf.2.2.2 h
  · intro hlive hpc
    rw [step_main_eq, hlive]
    rcases hpc with hpc | hpc <;> simp [mainStep, hpc, startRound]
  · intro hlive hpc
    rw [step_main_eq, hlive]
    simp [mainStep, hpc, markUpdate]

/-- Started on `handManager` with the clock reading `1000, 1001, ...`: after the first
round has been launched and the statement of `ProbeLoop` has run, the loop waits for
its first tick with the second reading in `LastUpdate`; the next step of the loop starts
the second round with the third reading. -/
theorem ProbeLoop_LastUpdate_witness :
    (run scriptEnv (Sys.start handManager) [.main, .main, .main, .main]).mainpc = .tick ∧
    (run scriptEnv (Sys.start handManager) [.main, .main, .main, .main]).w.m.LastUpdate = 1001 ∧
    ((step scriptEnv (run scriptEnv (Sys.start handManager) [.main, .main, .main, .main])
        .main).rounds = 1 + 1 ∧
      (step scriptEnv (run scriptEnv (Sys.start handManager) [.main, .main, .main, .main])
        .main).roundStart = 1002 ∧
      (step scriptEnv (run scriptEnv (Sys.start handManager) [.main, .main, .main, .main])
        .main).w.m.LastUpdate = 1002 ∧
      (step scriptEnv (run scriptEnv (Sys.start handManager) [.main, .main, .main, .main])
        .main).w.clock = 2 + 1 ∧
      (step scriptEnv (run scriptEnv (Sys.start handManager) [.main, .main, .main, .main])
        .main).tasks =
        (run scriptEnv (Sys.start handManager) [.main, .main, .main, .main]).tasks) :=
  ⟨by decide, by decide,
   (ProbeLoop_LastUpdate scriptEnv handManager [.main, .main, .main, .main]).2.2.2.1
      (by decide) (Or.inr (by decide))⟩

/-- C8 (the code does otherwise).  With the clock reading `1000, 1001, ...`, `ProbeLoop`
on `handManager` starts its first round at the reading `1000` and launches the one
probe; `LastUpdate` is `1000`.  Its next statement, `m.LastUpdate = time.Now()`, stores
`1001`: one round has started, it started at `1000`, and `LastUpdate` is `1001`, written
by a statement that starts no round.  The rounds of the loop have no such statement. -/
theorem ProbeLoop_overwrites_LastUpdate :
    (run scriptEnv (Sys.start handManager) [.main, .main, .main, .main]).rounds = 1 ∧
    (run scriptEnv (Sys.start handManager) [.main, .main, .main, .main]).roundStart = 1000 ∧
    (run scriptEnv (Sys.start handManager) [.main, .main, .main, .main]).w.m.LastUpdate = 1001 ∧
    (run scriptEnv (Sys.start handManager) [.main, .main, .main]).w.m.LastUpdate = 1000 ∧
    (run scriptEnv (Sys.start handManager) [.main, .main, .main]).rounds = 1 ∧
    (ProbeLoop scriptEnv (Sys.start handManager) 0).rounds = 1 ∧
    (ProbeLoop scriptEnv (Sys.start handManager) 0).roundStart = 1000 ∧
    (ProbeLoop scriptEnv (Sys.start handManager) 0).w.m.LastUpdate = 1001 := by
  decide

end manager

namespace manager

open probe

/-! ## The two stores of a probe -/

theorem getService_write {P A : Type} (w : World P A) (r r' : Ref)
    (f : Service P → Service P) :
    getService (w.write r f).m.Services r' =
      if r' = r then (getService w.m.Services r).map f else getService w.m.Services r' := by
  unfold World.write
  cases hg : getService w.m.Services r with
  | none =>
    by_cases h : r' = r
    · subst h; simp [hg]
    · simp [h]
  | some svc =>
    by_cases h : r' = r
    · subst h
      simp [getService_updateService_same _ _ _ _ hg]
    · simp [h, getService_updateService_other _ _ _ _ h]

theorem pairAt_write {P A : Type} (w : World P A) (r r' : Ref)
    (f : Service P → Service P) :
    pairAt (w.write r f) r' =
      if r' = r then (getService w.m.Services r).map (fun s => ((f s).Status, (f s).Message))
      else pairAt w r' := by
  unfold pairAt
  rw [getService_write]
  split
  · simp only [Option.map_map]; rfl
  · rfl

theorem World.write_probed {P A : Type} (w : World P A) (r : Ref)
    (f : Service P → Service P) : (w.write r f).probed = w.probed := by
  unfold World.write
  split <;> rfl

theorem midStore_eq_true_iff {P A : Type} (s : Sys P A) (r : Ref) :
    midStore s r = true ↔
      ∃ (i : Nat) (t : Task), s.tasks[i]? = some t ∧ t.service = r ∧ t.pc = .writeMessage := by
  unfold midStore
  rw [List.any_eq_true]
  constructor
  · rintro ⟨t, ht, hp⟩
    obtain ⟨i, hi⟩ := List.mem_iff_getElem?.mp ht
    simp only [Bool.and_eq_true, decide_eq_true_eq] at hp
    exact ⟨i, t, hi, hp.1, hp.2⟩
  · rintro ⟨i, t, hi, h1, h2⟩
    exact ⟨t, List.mem_iff_getElem?.mpr ⟨i, hi⟩, by simp [h1, h2]⟩

theorem midStore_eq_false_iff {P A : Type} (s : Sys P A) (r : Ref) :
    midStore s r = false ↔
      ∀ (i : Nat) (t : Task), s.tasks[i]? = some t → t.service = r → t.pc ≠ .writeMessage := by
  rw [← Bool.not_eq_true, midStore_eq_true_iff]
  constructor
  · intro h i t hi hr hpc
    exact h ⟨i, t, hi, hr, hpc⟩
  · rintro h ⟨i, t, hi, hr, hpc⟩
    exact h i t hi hr hpc

theorem getElem?_set_some {α : Type} (l : List α) (i j : Nat) (a b x : α)
    (hi : l[i]? = some a) (h : (l.set i b)[j]? = some x) :
    (j = i ∧ x = b) ∨ (j ≠ i ∧ l[j]? = some x) := by
  rw [List.getElem?_set] at h
  by_cases hij : i = j
  · subst hij
    have hlt : i < l.length := (List.getElem?_eq_some_iff.mp hi).1
    simp [hlt] at h
    exact Or.inl ⟨rfl, h.symm⟩
  · simp [hij] at h
    exact Or.inr ⟨fun e => hij e.symm, h⟩

theorem pairOfOneProbe_mono {P A : Type} (m : Manager P A) (w w' : World P A) (r : Ref)
    (p : Status × String) (hprobed : ∀ x, x ∈ w.probed → x ∈ w'.probed)
    (h : pairOfOneProbe m w r p) : pairOfOneProbe m w' r p := by
  rcases h with h | h
  · exact Or.inl h
  · exact Or.inr (hprobed _ h)

/-- A step of the loop keeps the invariant: it changes no service and no record of a
call, and at most adds a goroutine that has not started. -/
theorem PairInv_main {P A : Type} (m : Manager P A) (s s' : Sys P A) (hinv : PairInv m s)
    (hpair : ∀ r, pairAt s'.w r = pairAt s.w r) (hprobed : s'.w.probed = s.w.probed)
    (htasks : s'.tasks = s.tasks ∨ ∃ r : Ref, s'.tasks = s.tasks ++ [Task.new r.category r]) :
    PairInv m s' := by
  have hold : ∀ (j : Nat) (tj : Task), s'.tasks[j]? = some tj →
      tj.pc = .writeStatus ∨ tj.pc = .writeMessage → s.tasks[j]? = some tj := by
    intro j tj hj hpc
    rcases htasks with h | ⟨r, h⟩
    · rw [h] at hj; exact hj
    · rw [h] at hj
      by_cases hlt : j < s.tasks.length
      · rwa [List.getElem?_append_left hlt] at hj
      · rw [List.getElem?_append_right (by omega)] at hj
        have : tj = Task.new r.category r := by
          rcases hk : j - s.tasks.length with _ | k
          · rw [hk] at hj; simpa using hj.symm
          · rw [hk] at hj; simp at hj
        subst this
        rcases hpc with h | h <;> simp [Task.new] at h
  have hnew : ∀ (j : Nat) (tj : Task), s.tasks[j]? = some tj → s'.tasks[j]? = some tj := by
    intro j tj hj
    rcases htasks with h | ⟨r, h⟩
    · rw [h]; exact hj
    · rw [h, List.getElem?_append_left (List.getElem?_eq_some_iff.mp hj).1]; exact hj
  refine ⟨?_, ?_, ?_, ?_⟩
  · intro j tj hj hpc
    rw [hprobed]
    exact hinv.logged j tj (hold j tj hj hpc) hpc
  · intro i j ti tj hi hj hpi hpj hsv
    exact hinv.unique i j ti tj (hold i ti hi (Or.inr hpi)) (hold j tj hj (Or.inr hpj))
      hpi hpj hsv
  · intro j tj p hj hpc hp
    rw [hpair] at hp
    exact hinv.status j tj p (hold j tj hj (Or.inr hpc)) hpc hp
  · intro r p hp hmid
    rw [hpair] at hp
    have hmid' : midStore s r = false := by
      rw [midStore_eq_false_iff] at hmid ⊢
      intro j tj hj hr
      exact hmid j tj (hnew j tj hj) hr
    exact pairOfOneProbe_mono m s.w s'.w r p (by rw [hprobed]; exact fun _ h => h)
      (hinv.pair r p hp hmid')

/-- A statement of a goroutine that stores neither a status nor a message keeps the
invariant. -/
theorem PairInv_neutral {P A : Type} (m : Manager P A) (s s' : Sys P A) (i : Nat)
    (t t' : Task) (hinv : PairInv m s) (hi : s.tasks[i]? = some t)
    (htasks : s'.tasks = s.tasks.set i t')
    (hpc : t.pc ≠ .writeMessage) (hpc' : t'.pc ≠ .writeMessage)
    (hlog : t'.pc = .writeStatus → (t'.service, t'.status, t'.message) ∈ s'.w.probed)
    (hpair : ∀ r, pairAt s'.w r = pairAt s.w r)
    (hprobed : ∀ x, x ∈ s.w.probed → x ∈ s'.w.probed) : PairInv m s' := by
  have hold : ∀ (j : Nat) (tj : Task), s'.tasks[j]? = some tj →
      (j = i ∧ tj = t') ∨ (j ≠ i ∧ s.tasks[j]? = some tj) := by
    intro j tj hj
    rw [htasks] at hj
    exact getElem?_set_some s.tasks i j t t' tj hi hj
  refine ⟨?_, ?_, ?_, ?_⟩
  · intro j tj hj hpcj
    rcases hold j tj hj with ⟨-, rfl⟩ | ⟨-, hj'⟩
    · rcases hpcj with h | h
      · exact hlog h
      · exact absurd h hpc'
    · exact hprobed _ (hinv.logged j tj hj' hpcj)
  · intro a b ta tb ha hb hpa hpb hsv
    rcases hold a ta ha with ⟨-, rfl⟩ | ⟨-, ha'⟩
    · exact absurd hpa hpc'
    · rcases hold b tb hb with ⟨-, rfl⟩ | ⟨-, hb'⟩
      · exact absurd hpb hpc'
      · exact hinv.unique a b ta tb ha' hb' hpa hpb hsv
  · intro j tj p hj hpcj hp
    rcases hold j tj hj with ⟨-, rfl⟩ | ⟨-, hj'⟩
    · exact absurd hpcj hpc'
    · rw [hpair] at hp
      exact hinv.status j tj p hj' hpcj hp
  · intro r p hp hmid
    rw [hpair] at hp
    have hmid' : midStore s r = false := by
      rw [midStore_eq_false_iff] at hmid ⊢
      intro j tj hj hr
      by_cases hji : j = i
      · subst hji
        rw [hi] at hj
        cases hj
        exact hpc
      · apply hmid j tj _ hr
        rw [htasks, List.getElem?_set_ne (fun e => hji e.symm)]
        exact hj
    exact pairOfOneProbe_mono m s.w s'.w r p hprobed (hinv.pair r p hp hmid')

/-- The store into `Status`, made while no other probe of the service stands between
its two stores, keeps the invariant. -/
theorem PairInv_writeStatus {P A : Type} (m : Manager P A) (s s' : Sys P A) (i : Nat)
    (t : Task) (hinv : PairInv m s) (hi : s.tasks[i]? = some t)
    (hpc : t.pc = .writeStatus) (hallowed : midStore s t.service = false)
    (htasks : s'.tasks = s.tasks.set i { t with pc := .writeMessage })
    (hpair : ∀ r, pairAt s'.w r =
      if r = t.service then (pairAt s.w r).map (fun p => (t.status, p.2)) else pairAt s.w r)
    (hprobed : s'.w.probed = s.w.probed) : PairInv m s' := by
  have hlt : i < s.tasks.length := (List.getElem?_eq_some_iff.mp hi).1
  have hold : ∀ (j : Nat) (tj : Task), s'.tasks[j]? = some tj →
      (j = i ∧ tj = { t with pc := .writeMessage }) ∨ (j ≠ i ∧ s.tasks[j]? = some tj) := by
    intro j tj hj
    rw [htasks] at hj
    exact getElem?_set_some s.tasks i j t _ tj hi hj
  have hfree := (midStore_eq_false_iff s t.service).mp hallowed
  refine ⟨?_, ?_, ?_, ?_⟩
  · intro j tj hj hpcj
    rw [hprobed]
    rcases hold j tj hj with ⟨-, rfl⟩ | ⟨-, hj'⟩
    · exact hinv.logged i t hi (Or.inl hpc)
    · exact hinv.logged j tj hj' hpcj
  · intro a b ta tb ha hb hpa hpb hsv
    rcases hold a ta ha with ⟨rfl, rfl⟩ | ⟨hna, ha'⟩
    · rcases hold b tb hb with ⟨rfl, -⟩ | ⟨-, hb'⟩
      · rfl
      · exact absurd hpb (hfree b tb hb' hsv.symm)
    · rcases hold b tb hb with ⟨rfl, rfl⟩ | ⟨-, hb'⟩
      · exact absurd hpa (hfree a ta ha' hsv)
      · exact hinv.unique a b ta tb ha' hb' hpa hpb hsv
  · intro j tj p hj hpcj hp
    rw [hpair] at hp
    rcases hold j tj hj with ⟨-, rfl⟩ | ⟨-, hj'⟩
    · simp only [if_true] at hp
      cases hq : pairAt s.w t.service with
      | none => rw [hq] at hp; simp at hp
      | some q => rw [hq] at hp; simp at hp; rw [← hp]
    · have hne : tj.service ≠ t.service := fun e => hfree j tj hj' e hpcj
      rw [if_neg hne] at hp
      exact hinv.status j tj p hj' hpcj hp
  · intro r p hp hmid
    rw [midStore_eq_false_iff] at hmid
    have hne : r ≠ t.service := by
      intro e
      refine hmid i { t with pc := .writeMessage } ?_ e.symm rfl
      rw [htasks, List.getElem?_set_eq_of_lt _ hlt]
    rw [hpair, if_neg hne] at hp
    have hmid' : midStore s r = false := by
      rw [midStore_eq_false_iff]
      intro j tj hj hr
      by_cases hji : j = i
      · subst hji
        rw [hi] at hj
        cases hj
        rw [hpc]; simp
      · apply hmid j tj _ hr
        rw [htasks, List.getElem?_set_ne (fun e => hji e.symm)]
        exact hj
    exact pairOfOneProbe_mono m s.w s'.w r p (by rw [hprobed]; exact fun _ h => h)
      (hinv.pair r p hp hmid')

/-- The store into `Message` keeps the invariant: the service then shows the two
results of the call this goroutine made. -/
theorem PairInv_writeMessage {P A : Type} (m : Manager P A) (s s' : Sys P A) (i : Nat)
    (t : Task) (hinv : PairInv m s) (hi : s.tasks[i]? = some t)
    (hpc : t.pc = .writeMessage)
    (htasks : s'.tasks = s.tasks.set i { t with pc := .decide })
    (hpair : ∀ r, pairAt s'.w r =
      if r = t.service then (pairAt s.w r).map (fun p => (p.1, t.message)) else pairAt s.w r)
    (hprobed : s'.w.probed = s.w.probed) : PairInv m s' := by
  have hold : ∀ (j : Nat) (tj : Task), s'.tasks[j]? = some tj →
      (j = i ∧ tj = { t with pc := .decide }) ∨ (j ≠ i ∧ s.tasks[j]? = some tj) := by
    intro j tj hj
    rw [htasks] at hj
    exact getElem?_set_some s.tasks i j t _ tj hi hj
  refine ⟨?_, ?_, ?_, ?_⟩
  · intro j tj hj hpcj
    rw [hprobed]
    rcases hold j tj hj with ⟨-, rfl⟩ | ⟨-, hj'⟩
    · rcases hpcj with h | h <;> simp at h
    · exact hinv.logged j tj hj' hpcj
  · intro a b ta tb ha hb hpa hpb hsv
    rcases hold a ta ha with ⟨-, rfl⟩ | ⟨-, ha'⟩
    · simp at hpa
    · rcases hold b tb hb with ⟨-, rfl⟩ | ⟨-, hb'⟩
      · simp at hpb
      · exact hinv.unique a b ta tb ha' hb' hpa hpb hsv
  · intro j tj p hj hpcj hp
    rcases hold j tj hj with ⟨-, rfl⟩ | ⟨hji, hj'⟩
    · simp at hpcj
    · have hne : tj.service ≠ t.service := fun e =>
        hji (hinv.unique j i tj t hj' hi hpcj hpc e)
      rw [hpair, if_neg hne] at hp
      exact hinv.status j tj p hj' hpcj hp
  · intro r p hp hmid
    rw [midStore_eq_false_iff] at hmid
    rw [hpair] at hp
    by_cases hr : r = t.service
    · subst hr
      rw [if_pos rfl] at hp
      cases hq : pairAt s.w t.service with
      | none => rw [hq] at hp; simp at hp
      | some q =>
        rw [hq] at hp
        simp only [Option.map_some', Option.some.injEq] at hp
        have hst := hinv.status i t q hi hpc hq
        have hlog := hinv.logged i t hi (Or.inr hpc)
        right
        rw [hprobed, ← hp, hst]
        exact hlog
    · rw [if_neg hr] at hp
      have hmid' : midStore s r = false := by
        rw [midStore_eq_false_iff]
        intro j tj hj hrj
        by_cases hji : j = i
        · subst hji
          rw [hi] at hj
          cases hj
          exact absurd hrj (fun e => hr e.symm)
        · apply hmid j tj _ hrj
          rw [htasks, List.getElem?_set_ne (fun e => hji e.symm)]
          exact hj
      exact pairOfOneProbe_mono m s.w s'.w r p (by rw [hprobed]; exact fun _ h => h)
        (hinv.pair r p hp hmid')

theorem mainStep_frame {P A : Type} (env : Env P A) (s : Sys P A) :
    (∀ r, pairAt (mainStep env s).w r = pairAt s.w r) ∧
    (mainStep env s).w.probed = s.w.probed ∧
    ((mainStep env s).tasks = s.tasks ∨
      ∃ r : Ref, (mainStep env s).tasks = s.tasks ++ [Task.new r.category r]) := by
  obtain ⟨w, pc, tasks, rounds, rs⟩ := s
  cases pc with
  | start => exact ⟨fun _ => rfl, rfl, Or.inl rfl⟩
  | launching first todo =>
    cases todo with
    | nil => exact ⟨fun _ => rfl, rfl, Or.inl rfl⟩
    | cons r todo => exact ⟨fun _ => rfl, rfl, Or.inr ⟨r, rfl⟩⟩
  | markUpdate => exact ⟨fun _ => rfl, rfl, Or.inl rfl⟩
  | tick => exact ⟨fun _ => rfl, rfl, Or.inl rfl⟩

theorem pairAt_AlertAll {P A : Type} (env : Env P A) (w : World P A) (category : String)
    (service r : Ref) : pairAt (AlertAll env w category service) r = pairAt w r := by
  unfold pairAt
  rw [(AlertAll_frame env w category service).1]

theorem step_task_eq {P A : Type} (env : Env P A) (s : Sys P A) (i : Nat) (t : Task)
    (hlive : s.w.panicked = false) (hi : s.tasks[i]? = some t) :
    step env s (.task i) =
      { s with w := (taskStep env s.w t).1, tasks := s.tasks.set i (taskStep env s.w t).2 } := by
  simp [step, hlive, hi]

theorem step_task_none {P A : Type} (env : Env P A) (s : Sys P A) (i : Nat)
    (hi : s.tasks[i]? = none) : step env s (.task i) = s := by
  simp [step, hi]

theorem step_panicked {P A : Type} (env : Env P A) (s : Sys P A) (c : Choice)
    (hp : s.w.panicked = true) : step env s c = s := by
  simp [step, hp]

theorem taskStep_nil_pointer {P A : Type} (env : Env P A) (w : World P A) (t : Task)
    (hlive : w.panicked = false)
    (hpc : t.pc = .readPrev ∨ t.pc = .callProbe ∨ t.pc = .decide)
    (hsvc : getService w.m.Services t.service = none) :
    taskStep env w t = ({ w with panicked := true }, t) := by
  rcases hpc with h | h | h <;> simp [taskStep, hlive, h, hsvc]

theorem taskStep_done {P A : Type} (env : Env P A) (w : World P A) (t : Task)
    (hpc : t.pc = .done) : taskStep env w t = (w, t) := by
  unfold taskStep
  split
  · rfl
  · simp [hpc]

/-- Every step allowed in a serialised interleaving keeps the invariant. -/
theorem step_PairInv {P A : Type} (env : Env P A) (m : Manager P A) (s : Sys P A)
    (c : Choice) (hinv : PairInv m s) (hok : storeAllowed s c = true) :
    PairInv m (step env s c) := by
  by_cases hp : s.w.panicked = true
  · rw [step_panicked env s c hp]; exact hinv
  have hlive : s.w.panicked = false := by simpa using hp
  cases c with
  | main =>
    rw [step_main_eq, if_neg hp]
    obtain ⟨h1, h2, h3⟩ := mainStep_frame env s
    exact PairInv_main m s _ hinv h1 h2 h3
  | task i =>
    cases hi : s.tasks[i]? with
    | none => rw [step_task_none env s i hi]; exact hinv
    | some t =>
      rw [step_task_eq env s i t hlive hi]
      simp only [storeAllowed, hi] at hok
      have nilcase : getService s.w.m.Services t.service = none →
          t.pc = .readPrev ∨ t.pc = .callProbe ∨ t.pc = .decide →
          PairInv m { s with w := (taskStep env s.w t).1,
                             tasks := s.tasks.set i (taskStep env s.w t).2 } := by
        intro hg hpc
        rw [taskStep_nil_pointer env s.w t hlive hpc hg]
        refine PairInv_neutral m s _ i t t hinv hi rfl ?_ ?_ ?_ (fun r => rfl) (fun x hx => hx)
        · rcases hpc with h | h | h <;> simp [h]
        · rcases hpc with h | h | h <;> simp [h]
        · rcases hpc with h | h | h <;> simp [h]
      cases hpc : t.pc with
      | readPrev =>
        cases hg : getService s.w.m.Services t.service with
        | none => exact nilcase hg (Or.inl hpc)
        | some svc =>
          rw [taskStep_readPrev env s.w t svc hlive hpc hg]
          exact PairInv_neutral m s _ i t _ hinv hi rfl (by simp [hpc]) (by simp)
            (by simp) (fun r => rfl) (fun x hx => hx)
      | callProbe =>
        cases hg : getService s.w.m.Services t.service with
        | none => exact nilcase hg (Or.inr (Or.inl hpc))
        | some svc =>
          rw [taskStep_callProbe env s.w t svc hlive hpc hg]
          refine PairInv_neutral m s _ i t _ hinv hi rfl (by simp [hpc]) (by simp)
            (fun _ => ?_) (fun r => ?_) (fun x hx => ?_)
          · simp
          · have := pairAt_write s.w t.service r
              (fun s' => { s' with Prober := (env.Probe svc.Prober).1 })
            unfold pairAt at this ⊢
            simp only at this ⊢
            rw [this]
            split
            · rename_i h; subst h; rfl
            · rfl
          · simp [World.write_probed, hx]
      | writeStatus =>
        rw [taskStep_writeStatus env s.w t hlive hpc]
        simp only [hpc, if_true, Bool.not_eq_true'] at hok
        refine PairInv_writeStatus m s _ i t hinv hi hpc hok rfl (fun r => ?_)
          (World.write_probed _ _ _)
        show pairAt (s.w.write t.service _) r = _
        rw [pairAt_write]
        split
        · rename_i h; subst h; simp only [pairAt, Option.map_map]; rfl
        · rfl
      | writeMessage =>
        rw [taskStep_writeMessage env s.w t hlive hpc]
        refine PairInv_writeMessage m s _ i t hinv hi hpc rfl (fun r => ?_)
          (World.write_probed _ _ _)
        show pairAt (s.w.write t.service _) r = _
        rw [pairAt_write]
        split
        · rename_i h; subst h; simp only [pairAt, Option.map_map]; rfl
        · rfl
      | decide =>
        cases hg : getService s.w.m.Services t.service with
        | none => exact nilcase hg (Or.inr (Or.inr hpc))
        | some svc =>
          rw [taskStep_decide env s.w t svc hlive hpc hg]
          refine PairInv_neutral m s _ i t _ hinv hi rfl (by simp [hpc]) (by simp)
            (by simp) (fun r => ?_) (fun x hx => ?_)
          · show pairAt (if _ then _ else _) r = _
            split
            · exact pairAt_AlertAll env s.w _ _ r
            · rfl
          · show x ∈ (if _ then _ else _ : World P A).probed
            split
            · rw [(AlertAll_frame env s.w _ _).2.2.2]; exact hx
            · exact hx
      | done =>
        rw [taskStep_done env s.w t hpc]
        exact PairInv_neutral m s _ i t t hinv hi rfl (by simp [hpc]) (by simp [hpc])
          (by simp [hpc]) (fun r => rfl) (fun x hx => hx)

theorem PairInv_start {P A : Type} (m : Manager P A) : PairInv m (Sys.start m) := by
  refine ⟨?_, ?_, ?_, ?_⟩
  · intro i t hi; simp [Sys.start] at hi
  · intro i j ti tj hi; simp [Sys.start] at hi
  · intro i t p hi; simp [Sys.start] at hi
  · intro r p hp _
    exact Or.inl hp

theorem run_PairInv {P A : Type} (env : Env P A) (m : Manager P A) (sched : List Choice)
    (s : Sys P A) (hinv : PairInv m s) (hser : serialised env s sched = true) :
    PairInv m (run env s sched) := by
  induction sched generalizing s with
  | nil => exact hinv
  | cons c cs ih =>
    simp only [serialised, Bool.and_eq_true] at hser
    exact ih (step env s c) (step_PairInv env m s c hinv hser.1) hser.2

/-- C9, amended.  In every interleaving of `ProbeLoop` and the probe goroutines in
which no probe stores its status into a service while another probe of that service
stands between its store into `Status` and its store into `Message`, a snapshot read
of a service taken at a moment when no probe of that service stands between its two
stores observes the pair the service started with or the two results of one single
`Probe()` call made for that service. -/
theorem run_pair_of_one_probe {P A : Type} (env : Env P A) (m : Manager P A)
    (sched : List Choice) (r : Ref) (p : Status × String)
    (hser : serialised env (Sys.start m) sched = true)
    (hmid : midStore (run env (Sys.start m) sched) r = false)
    (hp : pairAt (run env (Sys.start m) sched).w r = some p) :
    pairAt (World.start m) r = some p ∨
      (r, p.1, p.2) ∈ (run env (Sys.start m) sched).w.probed :=
  (run_PairInv env m sched (Sys.start m) (PairInv_start m) hser).pair r p hp hmid

/-- Two rounds on `handManager`, the second probe after the first: the service ends
with `("OK", "idle")`, the two results of the second call. -/
theorem run_pair_of_one_probe_witness :
    serialised scriptEnv (Sys.start handManager) inTurnSchedule = true ∧
    pairAt (run scriptEnv (Sys.start handManager) inTurnSchedule).w ⟨"web", 0⟩ =
      some ("OK", "idle") ∧
    (run scriptEnv (Sys.start handManager) inTurnSchedule).w.probed =
      [(⟨"web", 0⟩, "ERROR", "down"), (⟨"web", 0⟩, "OK", "idle")] ∧
    (pairAt (World.start handManager) ⟨"web", 0⟩ = some ("OK", "idle") ∨
      ((⟨"web", 0⟩ : Ref), "OK", "idle") ∈
        (run scriptEnv (Sys.start handManager) inTurnSchedule).w.probed) :=
  ⟨by decide, by decide, by decide,
   run_pair_of_one_probe scriptEnv handManager inTurnSchedule ⟨"web", 0⟩ ("OK", "idle")
     (by decide) (by decide) (by decide)⟩

/-- C9 as stated fails.  The service of `handManager` starts with `("OK", "1 ms")`;
its prober returns `("ERROR", "down")` and then `("OK", "idle")`.

* A snapshot taken right after the first probe has stored its status observes
  `("ERROR", "1 ms")`: the status of that probe with the message the service had before.
* When the probes of two rounds overlap (`overlapSchedule`), the service is left with
  `("OK", "down")` after both goroutines have returned: the status of the second call
  with the message of the first. -/
theorem run_torn_pair_counterexample :
    pairAt (World.start handManager) ⟨"web", 0⟩ = some ("OK", "1 ms") ∧
    pairAt (run scriptEnv (Sys.start handManager) midStoreSchedule).w ⟨"web", 0⟩ =
      some ("ERROR", "1 ms") ∧
    (run scriptEnv (Sys.start handManager) midStoreSchedule).w.probed =
      [(⟨"web", 0⟩, "ERROR", "down")] ∧
    pairAt (run scriptEnv (Sys.start handManager) overlapSchedule).w ⟨"web", 0⟩ =
      some ("OK", "down") ∧
    (run scriptEnv (Sys.start handManager) overlapSchedule).w.probed =
      [(⟨"web", 0⟩, "ERROR", "down"), (⟨"web", 0⟩, "OK", "idle")] ∧
    (run scriptEnv (Sys.start handManager) overlapSchedule).tasks.map (fun t => t.pc) =
      [.done, .done] ∧
    (run scriptEnv (Sys.start handManager) overlapSchedule).w.panicked = false := by
  decide

end manager

namespace manager

open probe

/-! ## `probeAll` and `ProbeLoop` run without interruption -/

theorem foldl_launch {P A : Type} (todo : List Ref) (s : Sys P A) :
    todo.foldl launch s =
      { s with tasks := s.tasks ++ todo.map (fun r => Task.new r.category r) } := by
  induction todo generalizing s with
  | nil => simp
  | cons r todo ih =>
    rw [List.foldl_cons, ih]
    simp [launch]

/-- One call of `probeAll`: a round starts with one clock reading, stored in
`LastUpdate`, and one goroutine is launched for every service of the manager, each at
its first statement; the services and the alerters are untouched. -/
theorem probeAll_launches {P A : Type} (env : Env P A) (s : Sys P A) :
    (probeAll env s).tasks =
      s.tasks ++ (allRefs s.w.m.Services).map (fun r => Task.new r.category r) ∧
    (probeAll env s).w.m.LastUpdate = env.Now s.w.clock ∧
    (probeAll env s).roundStart = env.Now s.w.clock ∧
    (probeAll env s).rounds = s.rounds + 1 ∧
    (probeAll env s).w.clock = s.w.clock + 1 ∧
    (probeAll env s).w.m.Services = s.w.m.Services ∧
    (probeAll env s).w.m.Alerts = s.w.m.Alerts := by
  unfold probeAll
  rw [foldl_launch]
  simp [startRound]

/-- The loop of `probeAll` over the services still to be launched, step by step, ends
where the uninterrupted loop ends. -/
theorem run_launching {P A : Type} (env : Env P A) (first : Bool) (todo : List Ref)
    (s : Sys P A) (hlive : s.w.panicked = false) (hpc : s.mainpc = .launching first todo) :
    run env s (List.replicate (todo.length + 1) .main) =
      { todo.foldl launch s with mainpc := if first then .markUpdate else .tick } := by
  induction todo generalizing s with
  | nil =>
    simp [run, step, hlive, mainStep, hpc]
  | cons r todo ih =>
    have hstep : step env s .main = { launch s r with mainpc := .launching first todo } := by
      simp [step, hlive, mainStep, hpc]
    rw [List.length_cons, List.replicate_succ]
    show run env (step env s .main) _ = _
    rw [hstep]
    have h := ih { launch s r with mainpc := .launching first todo } hlive rfl
    rw [h]
    simp [foldl_launch, launch]

/-- The loop `ProbeLoop` entered on a fresh process, taken step by step with no goroutine
scheduled, reaches its wait for the first tick in the state of `ProbeLoop env s 0`: one
round has started, one goroutine per service has been launched, and nothing has been
probed yet. -/
theorem run_main_eq_ProbeLoop {P A : Type} (env : Env P A) (m : Manager P A) :
    run env (Sys.start m) (List.replicate ((allRefs m.Services).length + 3) .main) =
      { ProbeLoop env (Sys.start m) 0 with mainpc := .tick } ∧
    (ProbeLoop env (Sys.start m) 0).rounds = 1 ∧
    (ProbeLoop env (Sys.start m) 0).tasks =
      (allRefs m.Services).map (fun r => Task.new r.category r) ∧
    (ProbeLoop env (Sys.start m) 0).w.probed = [] := by
  refine ⟨?_, ?_, ?_, ?_⟩
  · have h1 : List.replicate ((allRefs m.Services).length + 3) Choice.main =
        [.main] ++ (List.replicate ((allRefs m.Services).length + 1) .main ++ [.main]) := by
      simp [List.replicate_succ, ← List.replicate_succ']
    rw [h1]
    unfold run
    rw [List.foldl_append, List.foldl_append]
    have h2 : List.foldl (step env) (Sys.start m) [.main] =
        { startRound env (Sys.start m) with
          mainpc := .launching true (allRefs m.Services) } := by
      simp [step, Sys.start, World.start, mainStep]
    rw [h2]
    have h3 := run_launching env true (allRefs m.Services)
      { startRound env (Sys.start m) with mainpc := .launching true (allRefs m.Services) }
      rfl rfl
    unfold run at h3
    rw [h3]
    simp [step, mainStep, ProbeLoop, probeAll, markUpdate, foldl_launch, startRound,
      Sys.start, World.start]
  · simp [ProbeLoop, markUpdate, probeAll, foldl_launch, startRound, Sys.start]
  · simp [ProbeLoop, markUpdate, probeAll, foldl_launch, startRound, Sys.start, World.start]
  · simp [ProbeLoop, markUpdate, probeAll, foldl_launch, startRound, Sys.start, World.start]

end manager

namespace manager

open probe

/-! ## The decision of a probe among other goroutines -/

theorem statusAt_write {P A : Type} (w : World P A) (r r' : Ref)
    (f : Service P → Service P) :
    statusAt (w.write r f) r' =
      if r' = r then (getService w.m.Services r).map (fun s => (f s).Status)
      else statusAt w r' := by
  unfold statusAt
  rw [getService_write]
  split
  · simp only [Option.map_map]; rfl
  · rfl

theorem World.write_panicked {P A : Type} (w : World P A) (r : Ref)
    (f : Service P → Service P) (h : (w.write r f).panicked = false) :
    w.panicked = false ∧ ∃ svc, getService w.m.Services r = some svc := by
  unfold World.write at h
  cases hg : getService w.m.Services r with
  | none => rw [hg] at h; simp at h
  | some svc => rw [hg] at h; exact ⟨h, svc, rfl⟩

theorem statusAt_AlertAll {P A : Type} (env : Env P A) (w : World P A) (category : String)
    (service r : Ref) : statusAt (AlertAll env w category service) r = statusAt w r := by
  unfold statusAt
  rw [(AlertAll_frame env w category service).1]

/-- A statement of a goroutine other than a store into the `Status` of the service behind
`r` leaves that status as it is. -/
theorem taskStep_statusAt {P A : Type} (env : Env P A) (w : World P A) (t : Task) (r : Ref)
    (hkept : t.pc = .writeStatus → t.service ≠ r) :
    statusAt (taskStep env w t).1 r = statusAt w r := by
  by_cases hp : w.panicked = true
  · simp [taskStep, hp]
  have hlive : w.panicked = false := by simpa using hp
  cases hpc : t.pc with
  | readPrev =>
    cases hg : getService w.m.Services t.service with
    | none => rw [taskStep_nil_pointer env w t hlive (Or.inl hpc) hg]; rfl
    | some svc => rw [taskStep_readPrev env w t svc hlive hpc hg]
  | callProbe =>
    cases hg : getService w.m.Services t.service with
    | none => rw [taskStep_nil_pointer env w t hlive (Or.inr (Or.inl hpc)) hg]; rfl
    | some svc =>
      rw [taskStep_callProbe env w t svc hlive hpc hg]
      have := statusAt_write w t.service r
        (fun s' => { s' with Prober := (env.Probe svc.Prober).1 })
      unfold statusAt at this ⊢
      simp only at this ⊢
      rw [this]
      split
      · rename_i h; subst h; rfl
      · rfl
  | writeStatus =>
    rw [taskStep_writeStatus env w t hlive hpc]
    show statusAt (w.write t.service _) r = _
    rw [statusAt_write, if_neg (fun e => hkept hpc e.symm)]
  | writeMessage =>
    rw [taskStep_writeMessage env w t hlive hpc]
    show statusAt (w.write t.service _) r = _
    rw [statusAt_write]
    split
    · rename_i h; subst h; rfl
    · rfl
  | decide =>
    cases hg : getService w.m.Services t.service with
    | none => rw [taskStep_nil_pointer env w t hlive (Or.inr (Or.inr hpc)) hg]; rfl
    | some svc =>
      rw [taskStep_decide env w t svc hlive hpc hg]
      show statusAt (if _ then _ else _) r = _
      split
      · exact statusAt_AlertAll env w _ _ r
      · rfl
  | done => rw [taskStep_done env w t hpc]

theorem mainStep_keeps {P A : Type} (env : Env P A) (s : Sys P A) :
    (mainStep env s).w.m.Services = s.w.m.Services ∧
    (mainStep env s).w.panicked = s.w.panicked ∧
    (mainStep env s).w.alertAlls = s.w.alertAlls ∧
    ∀ (j : Nat) (tj : Task), s.tasks[j]? = some tj → (mainStep env s).tasks[j]? = some tj := by
  obtain ⟨w, pc, tasks, rounds, rs⟩ := s
  cases pc with
  | start => exact ⟨rfl, rfl, rfl, fun _ _ h => h⟩
  | launching first todo =>
    cases todo with
    | nil => exact ⟨rfl, rfl, rfl, fun _ _ h => h⟩
    | cons r todo =>
      refine ⟨rfl, rfl, rfl, fun j tj h => ?_⟩
      show (tasks ++ [Task.new r.category r])[j]? = some tj
      rw [List.getElem?_append_left (List.getElem?_eq_some_iff.mp h).1]
      exact h
  | markUpdate => exact ⟨rfl, rfl, rfl, fun _ _ h => h⟩
  | tick => exact ⟨rfl, rfl, rfl, fun _ _ h => h⟩

/-- Any step other than a store of another goroutine into the `Status` of the service
keeps what is known of the `i`-th goroutine. -/
theorem step_ownStatus {P A : Type} (env : Env P A) (t : Task) (i : Nat) (s : Sys P A)
    (c : Choice) (hinv : ownStatus t i s) (hkept : statusKept s i t.service c = true) :
    ownStatus t i (step env s c) := by
  intro hlive'
  by_cases hp : s.w.panicked = true
  · rw [step_panicked env s c hp] at hlive'
    rw [hp] at hlive'
    cases hlive'
  have hlive : s.w.panicked = false := by simpa using hp
  obtain ⟨ti, hi, h1, h2, h3, h4, h5, hpcs⟩ := hinv hlive
  cases c with
  | main =>
    rw [step_main_eq, if_neg hp]
    obtain ⟨hs, -, -, ht⟩ := mainStep_keeps env s
    refine ⟨ti, ht i ti hi, h1, h2, h3, h4, h5, ?_⟩
    unfold statusAt at hpcs ⊢
    rw [hs]
    exact hpcs
  | task j =>
    cases hj : s.tasks[j]? with
    | none =>
      rw [step_task_none env s j hj]
      exact ⟨ti, hi, h1, h2, h3, h4, h5, hpcs⟩
    | some tj =>
      rw [step_task_eq env s j tj hlive hj] at hlive' ⊢
      simp only at hlive' ⊢
      have hjlt : j < s.tasks.length := (List.getElem?_eq_some_iff.mp hj).1
      by_cases hji : j = i
      · subst hji
        rw [hi] at hj
        cases hj
        rw [List.getElem?_set_eq_of_lt _ hjlt]
        rcases hpcs with hpc | hpc | ⟨hpc | hpc, hst⟩
        · -- the store into `Status`
          rw [taskStep_writeStatus env s.w ti hlive hpc] at hlive' ⊢
          simp only at hlive' ⊢
          obtain ⟨-, svc, hsvc⟩ := World.write_panicked _ _ _ hlive'
          refine ⟨_, rfl, h1, h2, h3, h4, h5, Or.inr (Or.inr ⟨Or.inl rfl, ?_⟩)⟩
          rw [statusAt_write, if_pos h2.symm, hsvc]
          simp [h4]
        · rw [taskStep_done env s.w ti hpc]
          exact ⟨_, rfl, h1, h2, h3, h4, h5, Or.inr (Or.inl hpc)⟩
        · -- the store into `Message`
          have hk := taskStep_statusAt env s.w ti t.service (by simp [hpc])
          rw [taskStep_writeMessage env s.w ti hlive hpc] at hk ⊢
          simp only at hk ⊢
          exact ⟨_, rfl, h1, h2, h3, h4, h5, Or.inr (Or.inr ⟨Or.inr rfl, hk.trans hst⟩)⟩
        · -- the decision
          have hsvc : ∃ svc, getService s.w.m.Services ti.service = some svc := by
            unfold statusAt at hst
            rw [h2]
            cases hg : getService s.w.m.Services t.service with
            | none => rw [hg] at hst; simp at hst
            | some svc => exact ⟨svc, rfl⟩
          obtain ⟨svc, hsvc⟩ := hsvc
          rw [taskStep_decide env s.w ti svc hlive hpc hsvc]
          exact ⟨_, rfl, h1, h2, h3, h4, h5, Or.inr (Or.inl rfl)⟩
      · rw [List.getElem?_set_ne hji]
        have hk : tj.pc = .writeStatus → tj.service ≠ t.service := by
          intro hpc hsv
          simp [statusKept, hji, hj, hpc, hsv] at hkept
        have hst := taskStep_statusAt env s.w tj t.service hk
        refine ⟨ti, hi, h1, h2, h3, h4, h5, ?_⟩
        rw [hst]
        exact hpcs

theorem run_ownStatus {P A : Type} (env : Env P A) (t : Task) (i : Nat)
    (sched : List Choice) (s : Sys P A) (hinv : ownStatus t i s)
    (hkept : undisturbed env s i t.service sched = true) :
    ownStatus t i (run env s sched) := by
  induction sched generalizing s with
  | nil => exact hinv
  | cons c cs ih =>
    simp only [undisturbed, Bool.and_eq_true] at hkept
    exact ih (step env s c) (step_ownStatus env t i s c hinv hkept.1) hkept.2

/-- Only the decision of a goroutine can invoke `AlertAll`: every other statement
leaves the count of invocations as it is. -/
theorem taskStep_alertAlls {P A : Type} (env : Env P A) (w : World P A) (t : Task)
    (hpc : t.pc ≠ .decide) : (taskStep env w t).1.alertAlls = w.alertAlls := by
  by_cases hp : w.panicked = true
  · simp [taskStep, hp]
  have hlive : w.panicked = false := by simpa using hp
  have hw : ∀ (r : Ref) (f : Service P → Service P), (w.write r f).alertAlls = w.alertAlls := by
    intro r f
    unfold World.write
    split <;> rfl
  cases h : t.pc with
  | readPrev =>
    cases hg : getService w.m.Services t.service with
    | none => rw [taskStep_nil_pointer env w t hlive (Or.inl h) hg]
    | some svc => rw [taskStep_readPrev env w t svc hlive h hg]
  | callProbe =>
    cases hg : getService w.m.Services t.service with
    | none => rw [taskStep_nil_pointer env w t hlive (Or.inr (Or.inl h)) hg]
    | some svc =>
      rw [taskStep_callProbe env w t svc hlive h hg]
      exact hw _ _
  | writeStatus => rw [taskStep_writeStatus env w t hlive h]; exact hw _ _
  | writeMessage => rw [taskStep_writeMessage env w t hlive h]; exact hw _ _
  | decide => exact absurd h hpc
  | done => rw [taskStep_done env w t h]

/-- C1, amended.  A probe goroutine (the `i`-th) has read the previous status
`t.prevStatus` and its call of `Probe()` has returned `(t.status, t.message)`; it stands
before its store into `Status`.  The process then runs in any interleaving in which no
other goroutine stores into the `Status` of that service, up to a live state in which the
goroutine stands at its decision.  Then the service shows `t.status`, and the decision
invokes `AlertAll` for that category and service if and only if exactly one of
`t.prevStatus` and `t.status` is `ERROR`, once; the goroutine has then returned.

The last two parts say where the two values come from and that a probe invokes `AlertAll`
nowhere else: the first statement of a goroutine reads the `Status` of its service, the
second takes the results of `Probe()`, and no statement other than the decision changes
the count of invocations. -/
theorem decide_alerts_iff {P A : Type} (env : Env P A) (s : Sys P A) (i : Nat) (t : Task)
    (sched : List Choice) (t' : Task)
    (hi : s.tasks[i]? = some t) (hpc : t.pc = .writeStatus)
    (hkept : undisturbed env s i t.service sched = true)
    (hi' : (run env s sched).tasks[i]? = some t') (hpc' : t'.pc = .decide)
    (hlive : (run env s sched).w.panicked = false) :
    t' = { t with pc := .decide } ∧
    statusAt (run env s sched).w t.service = some t.status ∧
    (step env (run env s sched) (.task i)).w =
      (if (t.prevStatus = StatusError ∧ t.status ≠ StatusError) ∨
          (t.prevStatus ≠ StatusError ∧ t.status = StatusError)
       then AlertAll env (run env s sched).w t.category t.service
       else (run env s sched).w) ∧
    ((step env (run env s sched) (.task i)).w.alertAlls = (run env s sched).w.alertAlls + 1 ↔
      (t.prevStatus = StatusError ∧ t.status ≠ StatusError) ∨
      (t.prevStatus ≠ StatusError ∧ t.status = StatusError)) ∧
    ((step env (run env s sched) (.task i)).w.alertAlls = (run env s sched).w.alertAlls ∨
      (step env (run env s sched) (.task i)).w.alertAlls =
        (run env s sched).w.alertAlls + 1) ∧
    (step env (run env s sched) (.task i)).tasks[i]? = some { t with pc := .done } ∧
    (∀ (s0 : Sys P A) (j : Nat) (t0 : Task) (svc : Service P),
      s0.w.panicked = false → s0.tasks[j]? = some t0 →
      getService s0.w.m.Services t0.service = some svc →
      (t0.pc = .readPrev →
        (step env s0 (.task j)).tasks[j]? =
          some { t0 with prevStatus := svc.Status, pc := .callProbe }) ∧
      (t0.pc = .callProbe →
        (step env s0 (.task j)).tasks[j]? =
          some { t0 with status := (env.Probe svc.Prober).2.1,
                         message := (env.Probe svc.Prober).2.2, pc := .writeStatus })) ∧
    (∀ (s0 : Sys P A) (j : Nat) (t0 : Task), s0.tasks[j]? = some t0 → t0.pc ≠ .decide →
      (step env s0 (.task j)).w.alertAlls = s0.w.alertAlls) := by
  have hstart : ownStatus t i s := fun _ => ⟨t, hi, rfl, rfl, rfl, rfl, rfl, Or.inl hpc⟩
  obtain ⟨ti, hti, h1, h2, h3, h4, h5, hpcs⟩ := run_ownStatus env t i sched s hstart hkept hlive
  rw [hi'] at hti
  cases hti
  have ht' : t' = { t with pc := .decide } := by
    cases t'; cases t
    simp only at h1 h2 h3 h4 h5 hpc'
    simp [h1, h2, h3, h4, h5, hpc']
  have hst : statusAt (run env s sched).w t.service = some t.status := by
    rcases hpcs with h | h | ⟨-, h⟩
    · rw [hpc'] at h; cases h
    · rw [hpc'] at h; cases h
    · exact h
  obtain ⟨svc, hsvc, hsvcst⟩ : ∃ svc, getService (run env s sched).w.m.Services t'.service =
      some svc ∧ svc.Status = t.status := by
    unfold statusAt at hst
    rw [h2]
    cases hg : getService (run env s sched).w.m.Services t.service with
    | none => rw [hg] at hst; simp at hst
    | some svc =>
      rw [hg] at hst
      simp only [Option.map_some', Option.some.injEq] at hst
      exact ⟨svc, rfl, hst⟩
  have hstep := step_task_eq env (run env s sched) i t' hlive hi'
  have hdec := taskStep_decide env (run env s sched).w t' svc hlive hpc' hsvc
  rw [hsvcst, h3, h1, h2] at hdec
  have hcond := crossing_iff t.prevStatus t.status
  have hw : (step env (run env s sched) (.task i)).w =
      (if (t.prevStatus = StatusError ∧ t.status ≠ StatusError) ∨
          (t.prevStatus ≠ StatusError ∧ t.status = StatusError)
       then AlertAll env (run env s sched).w t.category t.service
       else (run env s sched).w) := by
    rw [hstep, hdec]
    simp only
    by_cases hx : t.prevStatus ≠ t.status ∧ (t.status = StatusError ∨ t.prevStatus = StatusError)
    · rw [if_pos hx, if_pos (hcond.mp hx)]
    · rw [if_neg hx, if_neg (fun h => hx (hcond.mpr h))]
  have hA := AlertAll_frame env (run env s sched).w t.category t.service
  have hlt : i < (run env s sched).tasks.length := (List.getElem?_eq_some_iff.mp hi').1
  refine ⟨ht', hst, hw, ?_, ?_, ?_, ?_, ?_⟩
  · rw [hw]
    split
    · rename_i hx; rw [hA.2.2.1]; exact ⟨fun _ => hx, fun _ => rfl⟩
    · rename_i hx
      exact ⟨fun h => absurd h (by omega), fun h => absurd h hx⟩
  · rw [hw]
    split
    · right; rw [hA.2.2.1]
    · left; rfl
  · rw [hstep, hdec]
    simp only
    rw [List.getElem?_set_eq_of_lt _ hlt, ht']
  · intro s0 j t0 svc0 hlive0 hj0 hsvc0
    have hjlt : j < s0.tasks.length := (List.getElem?_eq_some_iff.mp hj0).1
    refine ⟨fun h => ?_, fun h => ?_⟩
    · rw [step_task_eq env s0 j t0 hlive0 hj0, taskStep_readPrev env s0.w t0 svc0 hlive0 h hsvc0]
      simp only
      rw [List.getElem?_set_eq_of_lt _ hjlt]
    · rw [step_task_eq env s0 j t0 hlive0 hj0, taskStep_callProbe env s0.w t0 svc0 hlive0 h hsvc0]
      simp only
      rw [List.getElem?_set_eq_of_lt _ hjlt]
  · intro s0 j t0 hj0 hne
    by_cases hp : s0.w.panicked = true
    · rw [step_panicked env s0 _ hp]
    · rw [step_task_eq env s0 j t0 (by simpa using hp) hj0]
      exact taskStep_alertAlls env s0.w t0 hne

/-- On `handManager` the first probe has read `OK` and received `("ERROR", "down")`.
While it makes its two stores the loop starts the second round, and the second probe
reads the status and calls `Probe()`.  The decision of the first probe then invokes
`AlertAll`, which reaches both alerters with the status `ERROR`. -/
theorem decide_alerts_iff_witness :
    (run scriptEnv (Sys.start handManager) probedSchedule).tasks[0]? =
      some { category := "web", service := ⟨"web", 0⟩, pc := .writeStatus,
             prevStatus := "OK", status := "ERROR", message := "down" } ∧
    undisturbed scriptEnv (run scriptEnv (Sys.start handManager) probedSchedule) 0
      ⟨"web", 0⟩ keptSchedule = true ∧
    ((step scriptEnv
        (run scriptEnv (run scriptEnv (Sys.start handManager) probedSchedule) keptSchedule)
        (.task 0)).w.alertAlls =
      (run scriptEnv (run scriptEnv (Sys.start handManager) probedSchedule)
        keptSchedule).w.alertAlls + 1 ↔
      (("OK" : Status) = StatusError ∧ ("ERROR" : Status) ≠ StatusError) ∨
      (("OK" : Status) ≠ StatusError ∧ ("ERROR" : Status) = StatusError)) ∧
    (step scriptEnv
        (run scriptEnv (run scriptEnv (Sys.start handManager) probedSchedule) keptSchedule)
        (.task 0)).w.calls =
      [⟨"mail", "ERROR", "web", "a", "down", "host-a", "1003"⟩,
       ⟨"chat", "ERROR", "web", "a", "down", "host-a", "1003"⟩] :=
  ⟨by decide, by decide,
   (decide_alerts_iff scriptEnv (run scriptEnv (Sys.start handManager) probedSchedule) 0
      { category := "web", service := ⟨"web", 0⟩, pc := .writeStatus,
        prevStatus := "OK", status := "ERROR", message := "down" }
      keptSchedule
      { category := "web", service := ⟨"web", 0⟩, pc := .decide,
        prevStatus := "OK", status := "ERROR", message := "down" }
      (by decide) rfl (by decide) (by decide) rfl (by decide)).2.2.2.1,
   by decide⟩

/-- C1 as stated fails.  In `overlapSchedule` on `handManager` the first probe reads the
previous status `OK` and its `Probe()` returns `ERROR`; before it decides, the probe of
the second round stores `OK` into the same service.  The decision compares `OK` with the
`OK` it reads back, and `AlertAll` is never invoked, although exactly one of the previous
status and the result of that probe is `ERROR`.  Both probes have completed. -/
theorem decide_overlap_counterexample :
    (run scriptEnv (Sys.start handManager) overlapSchedule).tasks =
      [{ category := "web", service := ⟨"web", 0⟩, pc := .done,
         prevStatus := "OK", status := "ERROR", message := "down" },
       { category := "web", service := ⟨"web", 0⟩, pc := .done,
         prevStatus := "OK", status := "OK", message := "idle" }] ∧
    (run scriptEnv (Sys.start handManager) overlapSchedule).w.probed =
      [(⟨"web", 0⟩, "ERROR", "down"), (⟨"web", 0⟩, "OK", "idle")] ∧
    (run scriptEnv (Sys.start handManager) overlapSchedule).w.alertAlls = 0 ∧
    (run scriptEnv (Sys.start handManager) overlapSchedule).w.calls = [] ∧
    (run scriptEnv (Sys.start handManager) overlapSchedule).w.panicked = false := by
  decide

end manager
